import Mathlib

/-!
# Verification of the expression validation / compilation / execution engine

Shallow embedding of `src/lib/expression-evaluator.ts` (class `ExpressionEvaluator`)
of the trigonometric-visualizer repository.

Modelling conventions:
* JS strings are Lean `String`s (the expressions of interest are ASCII);
  scanning works over `String.data : List Char`.
* JS numbers are modelled by `JSNum`: an exact rational together with the
  non-finite values `nan` / `inf` / `ninf`.  IEEE-754 rounding is not modelled;
  none of the verified properties depends on rounding of arithmetic.
* The host `Math` object's transcendental functions and irrational constants
  are kept abstract in a `MathModel` parameter: every theorem holds for an
  arbitrary interpretation of them.
* The dynamically generated function (`new Function(...)`) is modelled by
  parsing the rewritten source text into a small JS-expression AST (`JSExpr`)
  and interpreting it with JS scoping: inside the generated body exactly
  `t`, `time`, `vars`, `context` and `Math` are in scope, any other
  identifier raises a `ReferenceError`.  The parser covers the arithmetic
  subset actually produced by the rewriter (numbers, identifiers, member
  access, calls, `+ - * / %`, unary sign, parentheses); a source text outside
  this subset is treated as a compile failure, which is only ever used on
  concrete inputs where the behaviour agrees with the host language.
* Exceptions are `Except` values; the façade's `try/catch` is the explicit
  `match` in `ExpressionEvaluator.evaluate`.
-/

namespace TrigVis

/-! ## Character classes (JS regex `\w`, `\s`, `\d`, identifier characters) -/

/-- JS regex word character `\w` = `[A-Za-z0-9_]`.  Note `$` is *not* a word
character, which matters for `\b` boundaries around identifiers containing `$`. -/
def isWordChar (c : Char) : Bool :=
  c.isAlpha || c.isDigit || c = '_'

/-- JS whitespace (`\s`, and the set trimmed by `String.prototype.trim`),
restricted to the ASCII range plus NBSP/BOM. -/
def isJsWs (c : Char) : Bool :=
  c = ' ' || c = '\t' || c = '\n' || c = '\r' ||
  c.toNat = 0x0b || c.toNat = 0x0c || c.toNat = 0xa0 || c.toNat = 0xfeff

/-- First character of a JS identifier as used in the source's regexes:
`[a-zA-Z_$]`. -/
def isIdentStart (c : Char) : Bool :=
  c.isAlpha || c = '_' || c = '$'

/-- Subsequent character of a JS identifier: `[a-zA-Z0-9_$]`. -/
def isIdentChar (c : Char) : Bool :=
  c.isAlpha || c.isDigit || c = '_' || c = '$'

/-- ASCII decimal digit (`\d`). -/
def isDigitChar (c : Char) : Bool := c.isDigit

/-- `String.prototype.trim` on the underlying character list. -/
def jsTrimList (l : List Char) : List Char :=
  (l.dropWhile isJsWs).reverse.dropWhile isJsWs |>.reverse

/-- `String.prototype.trim`. -/
def jsTrim (s : String) : String :=
  String.mk (jsTrimList s.data)

/-- Case folding used for the `/i` regex flag (ASCII). -/
def ciChar (c : Char) : Char := c.toLower

/-! ## Regex fragments used by the validator, modelled directly

Each of the source's regular expressions is small enough to be translated
into a dedicated scanning function with the exact JS semantics (leftmost
scan, one-character advance on failure, greedy character classes over
disjoint alphabets, `\b` = word/non-word transition). -/

/-- `\b` between an optional previous character and an optional next
character: holds iff exactly one side is a word character. -/
def wordBoundary (prev next : Option Char) : Bool :=
  (match prev with | some c => isWordChar c | none => false) !=
  (match next with | some c => isWordChar c | none => false)

/-- Does literal `lit` occur at the head of `l` (case-insensitively when
`ci = true`)? -/
def literalAt (ci : Bool) : List Char → List Char → Bool
  | [], _ => true
  | _ :: _, [] => false
  | a :: as, b :: bs =>
      (if ci then ciChar a = ciChar b else a = b) && literalAt ci as bs

/-- Count occurrences of characters satisfying `p` (a one-character class
matched globally, e.g. `/[+\-*\x2f^%]/g` or `/\(/g`). -/
def countClass (p : Char → Bool) (l : List Char) : Nat :=
  (l.filter p).length

/-- Is there a character satisfying `p₁` followed (after `\s*`) by a character
satisfying `p₂`?  Models tests such as `/\)\s*\(/` and `/\d+\s*[a-zA-Z]/`
(for test purposes `\d+` is equivalent to a single `\d`). -/
def hasGapPair (p₁ p₂ : Char → Bool) : List Char → Bool
  | [] => false
  | c :: rest =>
      (p₁ c && ((rest.dropWhile isJsWs).headD ' ' |> p₂) &&
        !(rest.dropWhile isJsWs).isEmpty) || hasGapPair p₁ p₂ rest

/-- Are there two adjacent characters satisfying `p`?  Models
`/[+\-*\x2f^]\x7b2,\x7d/`. -/
def hasAdjacentPair (p : Char → Bool) : List Char → Bool
  | [] => false
  | [_] => false
  | a :: b :: rest => (p a && p b) || hasAdjacentPair p (b :: rest)

/-- Does the text end with a character satisfying `p` followed only by
whitespace?  Models `/[+\-*\x2f^]\s*$/`. -/
def endsWithClassWs (p : Char → Bool) (l : List Char) : Bool :=
  match (l.reverse.dropWhile isJsWs) with
  | [] => false
  | c :: _ => p c

/-- Does the text start with whitespace followed by a character satisfying
`p`?  Models `/^\s*[*\x2f^]/`. -/
def startsWithWsClass (p : Char → Bool) (l : List Char) : Bool :=
  match l.dropWhile isJsWs with
  | [] => false
  | c :: _ => p c

/-- Attempt of `\b(alt₁|alt₂|…)\b` at the current position: requires a word
boundary before the position, then tries the alternatives in order, each with
the trailing word boundary (regex backtracking over the alternation). -/
def altWordMatchAt (alts : List (List Char)) (prev : Option Char) (l : List Char) :
    Option (List Char) :=
  if wordBoundary prev l.head? then
    alts.find? fun a =>
      literalAt false a l && !a.isEmpty && wordBoundary a.getLast? (l.drop a.length).head?
  else none

/-- Global count of `\b(alt₁|…)\b` matches, scanning left to right, advancing
past a match or by one character on failure (fuel = input length suffices). -/
def countWordAltsFuel (alts : List (List Char)) : Nat → Option Char → List Char → Nat
  | 0, _, _ => 0
  | _ + 1, _, [] => 0
  | fuel + 1, prev, c :: rest =>
    match altWordMatchAt alts prev (c :: rest) with
    | some a => 1 + countWordAltsFuel alts fuel a.getLast? ((c :: rest).drop a.length)
    | none => countWordAltsFuel alts fuel (some c) rest

/-- Number of matches of `/\b(alt₁|…)\b/g` in a string. -/
def countWordAlts (alts : List String) (s : String) : Nat :=
  countWordAltsFuel (alts.map String.data) s.data.length none s.data

/-- Attempt of `\b[a-zA-Z_$][a-zA-Z0-9_$]*\s*\(` at the current position.
Returns the identifier (the match with `\s*\($` stripped, as the source does
with `call.replace`) and the input remaining after the `(`. -/
def callMatchAt (prev : Option Char) : List Char → Option (List Char × List Char)
  | [] => none
  | c :: rest =>
    if wordBoundary prev (some c) && isIdentStart c then
      let run := c :: rest.takeWhile isIdentChar
      let afterWs := (rest.drop (run.length - 1)).dropWhile isJsWs
      match afterWs with
      | p :: tail => if p = '(' then some (run, tail) else none
      | [] => none
    else none

/-- Global scan of `/\b[a-zA-Z_$][a-zA-Z0-9_$]*\s*\(/g`, yielding the
identifier of each match. -/
def scanCallsFuel : Nat → Option Char → List Char → List (List Char)
  | 0, _, _ => []
  | _ + 1, _, [] => []
  | fuel + 1, prev, c :: rest =>
    match callMatchAt prev (c :: rest) with
    | some (name, tail) => name :: scanCallsFuel fuel (some '(') tail
    | none => scanCallsFuel fuel (some c) rest

/-- Identifiers of all call-like matches (`name(`) in a string. -/
def scanCalls (s : String) : List String :=
  (scanCallsFuel s.data.length none s.data).map String.mk

/-- Attempt of `\b[a-zA-Z_$][a-zA-Z0-9_$]*\b` at the current position.  The
trailing `\b` makes the greedy run backtrack over trailing `$` characters
(`$` is not a word character); the match is the longest prefix of the run
ending in a word character. -/
def identMatchAt (prev : Option Char) : List Char → Option (List Char × List Char)
  | [] => none
  | c :: rest =>
    if wordBoundary prev (some c) && isIdentStart c then
      let run := c :: rest.takeWhile isIdentChar
      let kept := (run.reverse.dropWhile (fun ch => !isWordChar ch)).reverse
      if kept.isEmpty then none
      else some (kept, (c :: rest).drop kept.length)
    else none

/-- Global scan of `/\b[a-zA-Z_$][a-zA-Z0-9_$]*\b/g`. -/
def scanIdentsFuel : Nat → Option Char → List Char → List (List Char)
  | 0, _, _ => []
  | _ + 1, _, [] => []
  | fuel + 1, prev, c :: rest =>
    match identMatchAt prev (c :: rest) with
    | some (name, tail) => name :: scanIdentsFuel fuel name.getLast? tail
    | none => scanIdentsFuel fuel (some c) rest

/-- All bare identifiers in a string. -/
def scanIdents (s : String) : List String :=
  (scanIdentsFuel s.data.length none s.data).map String.mk

/-- `[...new Set(xs)]`: deduplication keeping the first occurrence. -/
def jsDedupAux : List String → List String → List String
  | _, [] => []
  | seen, x :: xs =>
    if x ∈ seen then jsDedupAux seen xs else x :: jsDedupAux (x :: seen) xs

/-- `[...new Set(xs)]`. -/
def jsDedup (l : List String) : List String := jsDedupAux [] l

/-! ## Case-insensitive searches for the security deny-list -/

/-- Search (`RegExp.test` with `/i`) for literal `lit` followed by a context
checked by `cont` on the remaining input. -/
def ciSearch (lit : List Char) (cont : List Char → Bool) : List Char → Bool
  | [] => false
  | c :: rest =>
    (literalAt true lit (c :: rest) && cont ((c :: rest).drop lit.length)) ||
      ciSearch lit cont rest

/-- Continuation `\s*\(` (or `\s*` + any given single character). -/
def wsThen (target : Char) (l : List Char) : Bool :=
  match l.dropWhile isJsWs with
  | [] => false
  | c :: _ => c = target

/-- Continuation `\s+`. -/
def wsPlus (l : List Char) : Bool :=
  match l with
  | [] => false
  | c :: _ => isJsWs c

/-- Continuation `\.`. -/
def dotThen (l : List Char) : Bool :=
  match l with
  | [] => false
  | c :: _ => c = '.'

/-- No trailing context. -/
def anyCont (_ : List Char) : Bool := true

/-! ## The validator (`validateExpression` and its four passes) -/

/-- Result of `validateExpression` (interface `ValidationResult`). -/
structure ValidationResult where
  isValid : Bool
  errors : List String
  warnings : List String
  complexity : Nat
  functionsUsed : List String
  variablesUsed : List String
deriving DecidableEq, Repr

/-- The fresh result every validation starts from. -/
def initialResult : ValidationResult :=
  ⟨true, [], [], 0, [], []⟩

/-- `result.errors.push(msg); result.isValid = false`. -/
def pushError (r : ValidationResult) (msg : String) : ValidationResult :=
  { r with errors := r.errors ++ [msg], isValid := false }

/-- `result.warnings.push(msg)`. -/
def pushWarning (r : ValidationResult) (msg : String) : ValidationResult :=
  { r with warnings := r.warnings ++ [msg] }

/-- Own keys of `SAFE_MATH_FUNCTIONS` (the allow-list registry). -/
def safeOwnKeys : List String :=
  ["sin", "cos", "tan", "asin", "acos", "atan", "atan2",
   "sinh", "cosh", "tanh", "asinh", "acosh", "atanh",
   "exp", "exp2", "expm1", "log", "log10", "log2", "log1p",
   "pow", "sqrt", "cbrt", "hypot",
   "abs", "sign", "floor", "ceil", "round", "trunc", "fround",
   "min", "max", "clamp", "fmod", "remainder", "gamma",
   "PI", "E", "LN2", "LN10", "LOG2E", "LOG10E", "SQRT1_2", "SQRT2",
   "TAU", "PHI", "DEG2RAD", "RAD2DEG"]

/-- Properties inherited from `Object.prototype`; the source tests membership
with the JS `in` operator, which walks the prototype chain. -/
def objectProtoKeys : List String :=
  ["constructor", "hasOwnProperty", "isPrototypeOf", "propertyIsEnumerable",
   "toLocaleString", "toString", "valueOf", "__defineGetter__",
   "__defineSetter__", "__lookupGetter__", "__lookupSetter__", "__proto__"]

/-- `name in SAFE_MATH_FUNCTIONS`. -/
def inSafeMath (name : String) : Bool :=
  name ∈ safeOwnKeys || name ∈ objectProtoKeys

/-- `hasBalancedParentheses`: running counter, failing as soon as it goes
negative, succeeding iff it ends at zero. -/
def balancedAux : Int → List Char → Bool
  | n, [] => n = 0
  | n, c :: rest =>
    let n' : Int := if c = '(' then n + 1 else if c = ')' then n - 1 else n
    if n' < 0 then false else balancedAux n' rest

/-- `hasBalancedParentheses`. -/
def hasBalancedParentheses (s : String) : Bool :=
  balancedAux 0 s.data

/-- `calculateNestingDepth`: maximum concurrent depth of parentheses. -/
def nestingDepthAux : Int → Int → List Char → Int
  | _, maxd, [] => maxd
  | cur, maxd, c :: rest =>
    if c = '(' then nestingDepthAux (cur + 1) (max maxd (cur + 1)) rest
    else if c = ')' then nestingDepthAux (cur - 1) maxd rest
    else nestingDepthAux cur maxd rest

/-- `calculateNestingDepth`. -/
def calculateNestingDepth (s : String) : Int :=
  nestingDepthAux 0 0 s.data

/-- Operator class of the syntax heuristics: `[+\-*\x2f^]`. -/
def isOpChar5 (c : Char) : Bool :=
  c = '+' || c = '-' || c = '*' || c = '/' || c = '^'

/-- Operator class of the complexity score: `[+\-*\x2f^%]`. -/
def isOpChar6 (c : Char) : Bool :=
  c = '+' || c = '-' || c = '*' || c = '/' || c = '^' || c = '%'

/-- Does one of the five heuristic "invalid syntax" patterns match? -/
def anyInvalidPattern (s : String) : Bool :=
  hasGapPair (fun c => c = ')') (fun c => c = '(') s.data ||
  hasGapPair isDigitChar Char.isAlpha s.data ||
  hasAdjacentPair isOpChar5 s.data ||
  endsWithClassWs isOpChar5 s.data ||
  startsWithWsClass (fun c => c = '*' || c = '/' || c = '^') s.data

/-- `validateSyntax`. -/
def validateSyntax (e : String) (r : ValidationResult) : ValidationResult :=
  let r₁ :=
    if !hasBalancedParentheses e then pushError r "Unbalanced parentheses" else r
  let r₂ :=
    if calculateNestingDepth e > 20 then
      pushError r₁ "Nesting too deep (max 20 levels)"
    else r₁
  if anyInvalidPattern e then pushWarning r₂ "Potentially invalid syntax detected"
  else r₂

/-- The security deny-list, in source order: each entry is the human-readable
name and the (case-insensitive) pattern test. -/
def forbiddenTests : List (String × (List Char → Bool)) :=
  [("eval function", ciSearch "eval".data (wsThen '(')),
   ("function declaration", ciSearch "function".data (wsThen '(')),
   ("arrow function", ciSearch "=>".data anyCont),
   ("while loop", ciSearch "while".data (wsThen '(')),
   ("for loop", ciSearch "for".data (wsThen '(')),
   ("do-while loop", ciSearch "do".data (wsThen (Char.ofNat 123))),
   ("conditional statement", ciSearch "if".data (wsThen '(')),
   ("constructor call", ciSearch "new".data wsPlus),
   ("import statement", ciSearch "import".data wsPlus),
   ("export statement", ciSearch "export".data wsPlus),
   ("require call", ciSearch "require".data (wsThen '(')),
   ("process object access", ciSearch "process".data dotThen),
   ("global object access", ciSearch "global".data dotThen),
   ("window object access", ciSearch "window".data dotThen),
   ("document object access", ciSearch "document".data dotThen),
   ("console object access", ciSearch "console".data dotThen),
   ("timer function", fun l => ciSearch "setTimeout".data anyCont l ||
      ciSearch "setInterval".data anyCont l),
   ("network request", fun l => ciSearch "XMLHttpRequest".data anyCont l ||
      ciSearch "fetch".data anyCont l)]

/-- Does the text contain a denied construct (some deny-list pattern matches)? -/
def forbiddenHit (e : String) : Bool :=
  forbiddenTests.any fun p => p.2 e.data

/-- `validateSecurity`: deny-list errors in order, then the allow-list check
of every call-like identifier. -/
def validateSecurity (e : String) (r : ValidationResult) : ValidationResult :=
  let r₁ := forbiddenTests.foldl
    (fun acc p =>
      if p.2 e.data then pushError acc ("Forbidden pattern detected: " ++ p.1)
      else acc) r
  (scanCalls e).foldl
    (fun acc name =>
      if !inSafeMath name then
        pushError acc ("Unknown or forbidden function: " ++ name)
      else acc) r₁

/-- `Math.round` for a non-negative argument (round half up). -/
def jsRound (q : ℚ) : Nat :=
  (⌊q + 1 / 2⌋).toNat

/-- The weighted linear complexity score, before rounding: 0.1 per
character, 1 per operator symbol, 2 per open parenthesis, 3 per common
transcendental name, 5 per expensive name. -/
def complexityScore (e : String) : ℚ :=
  (e.length : ℚ) * (1 / 10) +
    (countClass isOpChar6 e.data : ℚ) * 1 +
    (countClass (fun c => c = '(') e.data : ℚ) * 2 +
    (countWordAlts ["sin", "cos", "tan", "exp", "log", "pow"] e : ℚ) * 3 +
    (countWordAlts ["gamma", "hypot"] e : ℚ) * 5

/-- The same score in exact tenths (the score is always a multiple of 0.1,
so this integer representation is lossless and lets the kernel compute). -/
def complexityScore10 (e : String) : Nat :=
  e.length +
    10 * countClass isOpChar6 e.data +
    20 * countClass (fun c => c = '(') e.data +
    30 * countWordAlts ["sin", "cos", "tan", "exp", "log", "pow"] e +
    50 * countWordAlts ["gamma", "hypot"] e

/-- `Math.round(complexity)` computed on the tenths representation. -/
def complexityValue (e : String) : Nat :=
  (complexityScore10 e + 5) / 10

/-- `analyzeComplexity`. -/
def analyzeComplexity (e : String) (r : ValidationResult) : ValidationResult :=
  let r₁ := { r with complexity := complexityValue e }
  let r₂ :=
    if r₁.complexity > 100 then
      pushWarning r₁ "High complexity expression may impact performance"
    else r₁
  if r₁.complexity > 500 then
    pushWarning r₂ "Extremely complex expression may cause significant performance issues"
  else r₂

/-- `extractDependencies`. -/
def extractDependencies (e : String) (r : ValidationResult) : ValidationResult :=
  let functionMatches := scanCalls e
  let r₁ :=
    if functionMatches.isEmpty then r
    else { r with functionsUsed := jsDedup functionMatches }
  let variableMatches := scanIdents e
  if variableMatches.isEmpty then r₁
  else
    let varList := variableMatches.filter fun m =>
      !inSafeMath m && !r₁.functionsUsed.contains m
    { r₁ with variablesUsed := jsDedup varList }

/-- The fixed result for an empty or whitespace-only expression. -/
def emptyExprResult : ValidationResult :=
  { initialResult with errors := ["Expression cannot be empty"], isValid := false }

/-- Pure part of `validateExpression`: the full validation pipeline on the
raw text, without the memoization cache. -/
def validatePure (expression : String) : ValidationResult :=
  if jsTrim expression = "" then emptyExprResult
  else
    let r₀ :=
      if expression.length > 2000 then
        pushError initialResult "Expression too long (max 2000 characters)"
      else initialResult
    extractDependencies expression
      (analyzeComplexity expression
        (validateSecurity expression
          (validateSyntax expression r₀)))

/-! ## JS numbers (exact-rational abstraction of IEEE doubles) -/

/-- A JS number: finite (exact rational) or one of the non-finite values. -/
inductive JSNum where
  | fin (q : ℚ)
  | nan
  | inf
  | ninf
deriving DecidableEq, Repr

/-- Is the number finite (`isFinite`)? -/
def isFiniteNum : JSNum → Bool
  | .fin _ => true
  | _ => false

/-- Unary minus. -/
def jsNeg : JSNum → JSNum
  | .fin q => .fin (-q)
  | .nan => .nan
  | .inf => .ninf
  | .ninf => .inf

/-- JS `+` on numbers. -/
def jsAdd : JSNum → JSNum → JSNum
  | .fin a, .fin b => .fin (a + b)
  | .nan, _ => .nan
  | _, .nan => .nan
  | .inf, .ninf => .nan
  | .ninf, .inf => .nan
  | .inf, _ => .inf
  | _, .inf => .inf
  | .ninf, _ => .ninf
  | _, .ninf => .ninf

/-- JS `-` on numbers. -/
def jsSub (a b : JSNum) : JSNum := jsAdd a (jsNeg b)

/-- JS `*` on numbers (`0 * ∞ = NaN`). -/
def jsMul : JSNum → JSNum → JSNum
  | .fin a, .fin b => .fin (a * b)
  | .nan, _ => .nan
  | _, .nan => .nan
  | .fin a, .inf => if a = 0 then .nan else if a > 0 then .inf else .ninf
  | .fin a, .ninf => if a = 0 then .nan else if a > 0 then .ninf else .inf
  | .inf, .fin b => if b = 0 then .nan else if b > 0 then .inf else .ninf
  | .ninf, .fin b => if b = 0 then .nan else if b > 0 then .ninf else .inf
  | .inf, .inf => .inf
  | .inf, .ninf => .ninf
  | .ninf, .inf => .ninf
  | .ninf, .ninf => .inf

/-- JS `/` on numbers (division by zero gives a signed infinity or NaN;
the sign of JS `-0` is not modelled). -/
def jsDiv : JSNum → JSNum → JSNum
  | .fin a, .fin b =>
      if b = 0 then (if a = 0 then .nan else if a > 0 then .inf else .ninf)
      else .fin (a / b)
  | .nan, _ => .nan
  | _, .nan => .nan
  | .fin _, .inf => .fin 0
  | .fin _, .ninf => .fin 0
  | .inf, .fin b => if b ≥ 0 then .inf else .ninf
  | .ninf, .fin b => if b ≥ 0 then .ninf else .inf
  | .inf, _ => .nan
  | .ninf, _ => .nan

/-- Truncation toward zero of a rational. -/
def ratTrunc (q : ℚ) : ℤ :=
  if q < 0 then -⌊-q⌋ else ⌊q⌋

/-- JS `%` on numbers (sign follows the dividend). -/
def jsMod : JSNum → JSNum → JSNum
  | .fin a, .fin b =>
      if b = 0 then .nan else .fin (a - b * (ratTrunc (a / b) : ℚ))
  | .fin a, .inf => .fin a
  | .fin a, .ninf => .fin a
  | _, _ => .nan

/-! ## Values and the host `Math` object -/

/-- A JS value as far as the generated function's body can produce one:
a number, `undefined`, a plain object with numeric fields (the `vars` rest
object and the `context` parameter), the `Math` object, or one of its
function properties. -/
inductive JSVal where
  | num (n : JSNum)
  | undefinedVal
  | numObj (fields : List (String × ℚ))
  | mathObj
  | mathFn (name : String)
deriving Repr

/-- `ToNumber`: the coercion JS applies to operands; every non-number value
reachable in our subset coerces to NaN. -/
def toNumber : JSVal → JSNum
  | .num n => n
  | _ => .nan

/-- Function-valued properties of the host `Math` object (note that the
source's extras — `exp2`, `clamp`, `fmod`, `remainder`, `gamma` — are *not*
among them: the rewriter never qualifies those names, and unqualified they
are unresolvable inside the generated function). -/
def hostMathFnNames : List String :=
  ["sin", "cos", "tan", "asin", "acos", "atan", "atan2",
   "sinh", "cosh", "tanh", "asinh", "acosh", "atanh",
   "exp", "expm1", "log", "log10", "log2", "log1p",
   "pow", "sqrt", "cbrt", "hypot",
   "abs", "sign", "floor", "ceil", "round", "trunc", "fround",
   "min", "max"]

/-- Numeric constant properties of the host `Math` object. -/
def hostMathConstNames : List String :=
  ["PI", "E", "LN2", "LN10", "LOG2E", "LOG10E", "SQRT1_2", "SQRT2"]

/-- Abstract interpretation of the host's math library: transcendental
functions and irrational constants cannot be represented exactly, so the
development is parameterized by an arbitrary interpretation of them. -/
structure MathModel where
  apply : String → List JSNum → JSNum
  const : String → JSNum

/-- Property lookup on the `Math` object. -/
def mathMember (M : MathModel) (f : String) : JSVal :=
  if f ∈ hostMathFnNames then .mathFn f
  else if f ∈ hostMathConstNames then .num (M.const f)
  else .undefinedVal

/-- A runtime fault inside the generated function. -/
inductive JsFault where
  | refErr (name : String)
  | typeErr
  | wrapped (msg : String)
deriving DecidableEq, Repr

/-! ## The generated function's expression language -/

/-- AST of the JS expression subset the rewriter can produce. -/
inductive JSExpr where
  | num (q : ℚ)
  | ident (name : String)
  | member (obj : JSExpr) (field : String)
  | call (fn : JSExpr) (args : List JSExpr)
  | neg (e : JSExpr)
  | pos (e : JSExpr)
  | add (a b : JSExpr)
  | sub (a b : JSExpr)
  | mul (a b : JSExpr)
  | div (a b : JSExpr)
  | mod (a b : JSExpr)
deriving Repr

/-- Evaluation context: the argument object of the compiled function
(variable name ↦ number). -/
abbrev Ctx := List (String × ℚ)

/-- Object property lookup (context objects have unique keys). -/
def lookupQ (l : List (String × ℚ)) (k : String) : Option ℚ :=
  (l.find? fun p => p.1 = k).map Prod.snd

/-- The local scope of the generated body:
`const { t = 0, time = 0, ...vars } = context || \x7b\x7d;`
plus the parameter `context` itself and the global `Math`. -/
structure GenEnv where
  t : ℚ
  time : ℚ
  vars : List (String × ℚ)
  ctxAll : List (String × ℚ)

/-- Build the scope from the call's context argument: `t` and `time` are
destructured (defaulting to 0), all remaining entries land in the single
rest object `vars`. -/
def mkGenEnv (ctx : Ctx) : GenEnv :=
  { t := (lookupQ ctx "t").getD 0
    time := (lookupQ ctx "time").getD 0
    vars := ctx.filter fun p => p.1 ≠ "t" && p.1 ≠ "time"
    ctxAll := ctx }

mutual

/-- Interpreter for the expression subset, with JS strict-mode scoping:
exactly `t`, `time`, `vars`, `context` and `Math` are resolvable names;
any other identifier raises a `ReferenceError`.  The interpreter is fueled
(structurally recursive) so that it computes inside the kernel; the fuel the
compiler supplies always exceeds the depth of any parsed expression. -/
def evalJSFuel (M : MathModel) (env : GenEnv) : Nat → JSExpr → Except JsFault JSVal
  | 0, _ => .error (.wrapped "recursion limit")
  | fuel + 1, e =>
    match e with
    | .num q => .ok (.num (.fin q))
    | .ident n =>
        if n = "t" then .ok (.num (.fin env.t))
        else if n = "time" then .ok (.num (.fin env.time))
        else if n = "vars" then .ok (.numObj env.vars)
        else if n = "context" then .ok (.numObj env.ctxAll)
        else if n = "Math" then .ok .mathObj
        else .error (.refErr n)
    | .member o f => do
        let v ← evalJSFuel M env fuel o
        match v with
        | .undefinedVal => .error .typeErr
        | .mathObj => .ok (mathMember M f)
        | .numObj fields =>
            .ok (match lookupQ fields f with
                 | some q => .num (.fin q)
                 | none => .undefinedVal)
        | .num _ => .ok .undefinedVal
        | .mathFn _ => .ok .undefinedVal
    | .call f args => do
        let fv ← evalJSFuel M env fuel f
        let avs ← evalArgsFuel M env fuel args
        match fv with
        | .mathFn name => .ok (.num (M.apply name (avs.map toNumber)))
        | _ => .error .typeErr
    | .neg a => do
        let v ← evalJSFuel M env fuel a
        .ok (.num (jsNeg (toNumber v)))
    | .pos a => do
        let v ← evalJSFuel M env fuel a
        .ok (.num (toNumber v))
    | .add a b => do
        let x ← evalJSFuel M env fuel a
        let y ← evalJSFuel M env fuel b
        .ok (.num (jsAdd (toNumber x) (toNumber y)))
    | .sub a b => do
        let x ← evalJSFuel M env fuel a
        let y ← evalJSFuel M env fuel b
        .ok (.num (jsSub (toNumber x) (toNumber y)))
    | .mul a b => do
        let x ← evalJSFuel M env fuel a
        let y ← evalJSFuel M env fuel b
        .ok (.num (jsMul (toNumber x) (toNumber y)))
    | .div a b => do
        let x ← evalJSFuel M env fuel a
        let y ← evalJSFuel M env fuel b
        .ok (.num (jsDiv (toNumber x) (toNumber y)))
    | .mod a b => do
        let x ← evalJSFuel M env fuel a
        let y ← evalJSFuel M env fuel b
        .ok (.num (jsMod (toNumber x) (toNumber y)))

/-- Left-to-right evaluation of a call's argument list. -/
def evalArgsFuel (M : MathModel) (env : GenEnv) : Nat → List JSExpr → Except JsFault (List JSVal)
  | 0, _ => .error (.wrapped "recursion limit")
  | _ + 1, [] => .ok []
  | fuel + 1, a :: as => do
      let v ← evalJSFuel M env fuel a
      let vs ← evalArgsFuel M env fuel as
      .ok (v :: vs)

end

/-! ## Parser for the generated source text

`new Function` parses the rewritten expression with the full host grammar;
the model parses the arithmetic subset the rewriter can produce.  A text
outside the subset is treated as a compile failure. -/

/-- Numeric value of a digit run. -/
def digitsToNat (l : List Char) : Nat :=
  l.foldl (fun acc c => acc * 10 + (c.toNat - 48)) 0

/-- Skip whitespace between tokens. -/
def skipWs (l : List Char) : List Char := l.dropWhile isJsWs

/-- Parse a numeric literal (integer or decimal) at the head of the input. -/
def parseNumberTok (l : List Char) : Option (ℚ × List Char) :=
  let ds := l.takeWhile isDigitChar
  if ds.isEmpty then none
  else
    let rest := l.drop ds.length
    match rest with
    | c :: rest' =>
        if c = '.' then
          let fs := rest'.takeWhile isDigitChar
          if fs.isEmpty then none
          else
            some (((digitsToNat ds : ℚ) +
              (digitsToNat fs : ℚ) / ((10 : ℚ) ^ fs.length)), rest'.drop fs.length)
        else some ((digitsToNat ds : ℚ), rest)
    | [] => some ((digitsToNat ds : ℚ), rest)

/-- Parse an identifier at the head of the input. -/
def parseIdentTok (l : List Char) : Option (String × List Char) :=
  match l with
  | c :: rest =>
      if isIdentStart c then
        let run := c :: rest.takeWhile isIdentChar
        some (String.mk run, l.drop run.length)
      else none
  | [] => none

mutual

/-- `primary := number | identifier | ( expr )`. -/
def parsePrimary : Nat → List Char → Option (JSExpr × List Char)
  | 0, _ => none
  | fuel + 1, l =>
    let l := skipWs l
    match l with
    | c :: rest =>
        if c = '(' then
          match parseAdd fuel rest with
          | some (e, rest') =>
              (match skipWs rest' with
               | c' :: rest'' => if c' = ')' then some (e, rest'') else none
               | [] => none)
          | none => none
        else if isDigitChar c then
          (parseNumberTok l).map fun p => (JSExpr.num p.1, p.2)
        else if isIdentStart c then
          (parseIdentTok l).map fun p => (JSExpr.ident p.1, p.2)
        else none
    | [] => none

/-- Postfix chain: member access `.field` and calls `(args)`. -/
def parsePostfixLoop : Nat → JSExpr → List Char → Option (JSExpr × List Char)
  | 0, _, _ => none
  | fuel + 1, acc, l =>
    match skipWs l with
    | c :: rest =>
        if c = '.' then
          match parseIdentTok (skipWs rest) with
          | some (f, rest') => parsePostfixLoop fuel (JSExpr.member acc f) rest'
          | none => none
        else if c = '(' then
          match skipWs rest with
          | c' :: rest' =>
              if c' = ')' then parsePostfixLoop fuel (JSExpr.call acc []) rest'
              else
                match parseArgs fuel rest with
                | some (args, rest'') => parsePostfixLoop fuel (JSExpr.call acc args) rest''
                | none => none
          | [] => none
        else some (acc, l)
    | [] => some (acc, l)

/-- Comma-separated argument list, consuming the closing parenthesis. -/
def parseArgs : Nat → List Char → Option (List JSExpr × List Char)
  | 0, _ => none
  | fuel + 1, l =>
    match parseAdd fuel l with
    | some (e, rest) =>
        (match skipWs rest with
         | c :: rest' =>
             if c = ',' then
               match parseArgs fuel rest' with
               | some (es, rest'') => some (e :: es, rest'')
               | none => none
             else if c = ')' then some ([e], rest')
             else none
         | [] => none)
    | none => none

/-- `postfix := primary (('.' ident) | call)*`. -/
def parsePostfix : Nat → List Char → Option (JSExpr × List Char)
  | 0, _ => none
  | fuel + 1, l =>
    match parsePrimary fuel l with
    | some (e, rest) => parsePostfixLoop fuel e rest
    | none => none

/-- `unary := ('-' | '+') unary | postfix`. -/
def parseUnary : Nat → List Char → Option (JSExpr × List Char)
  | 0, _ => none
  | fuel + 1, l =>
    match skipWs l with
    | c :: rest =>
        if c = '-' then
          (parseUnary fuel rest).map fun p => (JSExpr.neg p.1, p.2)
        else if c = '+' then
          (parseUnary fuel rest).map fun p => (JSExpr.pos p.1, p.2)
        else parsePostfix fuel (c :: rest)
    | [] => none

/-- `mul := unary (('*' | '\x2f' | '%') unary)*`. -/
def parseMulLoop : Nat → JSExpr → List Char → Option (JSExpr × List Char)
  | 0, _, _ => none
  | fuel + 1, acc, l =>
    match skipWs l with
    | c :: rest =>
        if c = '*' || c = '/' || c = '%' then
          match parseUnary fuel rest with
          | some (e, rest') =>
              let acc' := if c = '*' then JSExpr.mul acc e
                          else if c = '/' then JSExpr.div acc e
                          else JSExpr.mod acc e
              parseMulLoop fuel acc' rest'
          | none => none
        else some (acc, l)
    | [] => some (acc, l)

/-- One multiplicative level. -/
def parseMul : Nat → List Char → Option (JSExpr × List Char)
  | 0, _ => none
  | fuel + 1, l =>
    match parseUnary fuel l with
    | some (e, rest) => parseMulLoop fuel e rest
    | none => none

/-- `add := mul (('+' | '-') mul)*`. -/
def parseAddLoop : Nat → JSExpr → List Char → Option (JSExpr × List Char)
  | 0, _, _ => none
  | fuel + 1, acc, l =>
    match skipWs l with
    | c :: rest =>
        if c = '+' || c = '-' then
          match parseMul fuel rest with
          | some (e, rest') =>
              let acc' := if c = '+' then JSExpr.add acc e else JSExpr.sub acc e
              parseAddLoop fuel acc' rest'
          | none => none
        else some (acc, l)
    | [] => some (acc, l)

/-- Top level: one additive expression. -/
def parseAdd : Nat → List Char → Option (JSExpr × List Char)
  | 0, _ => none
  | fuel + 1, l =>
    match parseMul fuel l with
    | some (e, rest) => parseAddLoop fuel e rest
    | none => none

end

/-- Parse a complete expression (the `${safeExpression}` slot of the
generated body); fails if the input is not a single expression of the
subset. -/
def parseJS (s : String) : Option JSExpr :=
  match parseAdd (8 * s.data.length + 16) s.data with
  | some (e, rest) => if (skipWs rest).isEmpty then some e else none
  | none => none

/-! ## The rewriter of `compileExpression` -/

/-- Attempt of `\b(name₁|name₂|…)\s*\(` at the current position: boundary
before the name, the name literally, then `\s*` and `(`.  Returns the
matched name and the input remaining after the `(`. -/
def fnCallAltMatchAt (alts : List (List Char)) (prev : Option Char) (l : List Char) :
    Option (List Char × List Char) :=
  if wordBoundary prev l.head? then
    match alts.find? (fun a =>
      literalAt false a l &&
        wsThen '(' (l.drop a.length)) with
    | some a => some (a, ((l.drop a.length).dropWhile isJsWs).drop 1)
    | none => none
  else none

/-- Global replace of `/\b(name₁|…)\s*\(/g` by `Math.$1(`. -/
def replaceFnCallsFuel (alts : List (List Char)) : Nat → Option Char → List Char → List Char
  | 0, _, l => l
  | _ + 1, _, [] => []
  | fuel + 1, prev, c :: rest =>
    match fnCallAltMatchAt alts prev (c :: rest) with
    | some (name, tail) =>
        "Math.".data ++ name ++ '(' :: replaceFnCallsFuel alts fuel (some '(') tail
    | none => c :: replaceFnCallsFuel alts fuel (some c) rest

/-- Replace of `\b(name₁|…)\s*\(` by `Math.$1(` over a whole string. -/
def replaceFnCalls (alts : List String) (s : String) : String :=
  String.mk (replaceFnCallsFuel (alts.map String.data) s.data.length none s.data)

/-- Global replace of `/\b(alt₁|…)\b/g` by a fixed replacement text.  The
scan continues in the original text after the match (the replacement is not
rescanned), and the following `\b` is judged against the original characters. -/
def replaceWordAltsFuel (alts : List (List Char)) (repl : List Char) :
    Nat → Option Char → List Char → List Char
  | 0, _, l => l
  | _ + 1, _, [] => []
  | fuel + 1, prev, c :: rest =>
    match altWordMatchAt alts prev (c :: rest) with
    | some a =>
        repl ++ replaceWordAltsFuel alts repl fuel a.getLast? ((c :: rest).drop a.length)
    | none => c :: replaceWordAltsFuel alts repl fuel (some c) rest

/-- Replace of `\b(alt₁|…)\b` over a whole string. -/
def replaceWordAlts (alts : List String) (repl : String) (s : String) : String :=
  String.mk (replaceWordAltsFuel (alts.map String.data) repl.data s.data.length none s.data)

/-- The `safeExpression` rewrite chain of `compileExpression`, in source
order. -/
def rewriteSafe (e : String) : String :=
  let s1 := replaceFnCalls
    ["sin", "cos", "tan", "asin", "acos", "atan", "atan2",
     "sinh", "cosh", "tanh", "asinh", "acosh", "atanh"] e
  let s2 := replaceFnCalls ["exp", "exp2", "expm1", "log", "log10", "log2", "log1p"] s1
  let s3 := replaceFnCalls ["pow", "sqrt", "cbrt", "hypot"] s2
  let s4 := replaceFnCalls ["abs", "sign", "floor", "ceil", "round", "trunc", "fround"] s3
  let s5 := replaceFnCalls ["min", "max"] s4
  let s6 := replaceWordAlts ["PI", "pi"] "Math.PI" s5
  let s7 := replaceWordAlts ["E", "e"] "Math.E" s6
  let s8 := replaceWordAlts ["TAU"] "(Math.PI * 2)" s7
  let s9 := replaceWordAlts ["PHI"] "((1 + Math.sqrt(5)) / 2)" s8
  let s10 := replaceWordAlts ["DEG2RAD"] "(Math.PI / 180)" s9
  replaceWordAlts ["RAD2DEG"] "(180 / Math.PI)" s10

/-- The compiled callable: the single-argument generated function.  Its body
destructures the context, evaluates the rewritten expression inside an inner
failure boundary that substitutes 0 on any runtime fault, and coerces a
non-finite result to 0 — so it never throws and always returns a number. -/
def genFn (M : MathModel) (fuel : Nat) (ast : JSExpr) : Ctx → Except JsFault JSVal := fun ctx =>
  match evalJSFuel M (mkGenEnv ctx) fuel ast with
  | .ok (.num (.fin q)) => .ok (.num (.fin q))
  | .ok _ => .ok (.num (.fin 0))
  | .error _ => .ok (.num (.fin 0))

/-- `compileExpression`: rewrite, then generate the callable; a generation
failure (the host would raise a `SyntaxError`) is rethrown as a compile
error. -/
def compileExpression (M : MathModel) (e : String) :
    Except String (Ctx → Except JsFault JSVal) :=
  match parseJS (rewriteSafe e) with
  | some ast => .ok (genFn M (8 * (rewriteSafe e).data.length + 16) ast)
  | none => .error "Failed to compile expression"

/-! ## Process-wide state: caches, statistics, error log -/

/-- The `EvaluationStats` record. -/
structure EvalStats where
  totalEvaluations : Nat
  successfulEvaluations : Nat
  failedEvaluations : Nat
  averageEvaluationTime : ℚ
  cacheHitRate : ℚ
  lastEvaluationTime : ℚ
deriving DecidableEq, Repr

/-- The `AppError` record produced by `handleEvaluationError`. -/
structure AppErrorRec where
  type : String
  message : String
  timestamp : ℚ
  recoverable : Bool
deriving DecidableEq, Repr

/-- A compiled callable, as stored in the expression cache. -/
abbrev CompiledFn := Ctx → Except JsFault JSVal

/-- JS `Map.has`. -/
def mapHas {α : Type} (m : List (String × α)) (k : String) : Bool :=
  m.any fun p => p.1 = k

/-- JS `Map.get` (`undefined` = `none`). -/
def mapGet? {α : Type} (m : List (String × α)) (k : String) : Option α :=
  (m.find? fun p => p.1 = k).map Prod.snd

/-- JS `Map.set`: overwrite in place when the key exists, append otherwise. -/
def mapSet {α : Type} (m : List (String × α)) (k : String) (v : α) :
    List (String × α) :=
  if mapHas m k then m.map fun p => if p.1 = k then (k, v) else p
  else m ++ [(k, v)]

/-- The whole mutable static state of `ExpressionEvaluator`.  The calls to
`console.warn` / `console.error` in `handleEvaluationError` are modelled by
the `errorLog` list (newest first). -/
structure EvalState where
  expressionCache : List (String × CompiledFn)
  validationCache : List (String × ValidationResult)
  stats : EvalStats
  errorLog : List AppErrorRec

/-- `MAX_CACHE_SIZE`. -/
def MAX_CACHE_SIZE : Nat := 1000

/-- The state at module load. -/
def initState : EvalState :=
  ⟨[], [], ⟨0, 0, 0, 0, 0, 0⟩, []⟩

/-- `handleEvaluationError`: log one structured, always-recoverable error
record. -/
def logError (s : EvalState) (type msg : String) (ts : ℚ) : EvalState :=
  { s with errorLog := ⟨type, msg, ts, true⟩ :: s.errorLog }

/-- `validateExpression`: memoized by the *raw* expression text.  The empty /
whitespace-only early return happens before the cache-insertion step; on
reaching capacity the whole validation cache is cleared before inserting. -/
def validateExpressionS (e : String) (s : EvalState) :
    ValidationResult × EvalState :=
  match mapGet? s.validationCache e with
  | some r => (r, s)
  | none =>
    let r := validatePure e
    if jsTrim e = "" then (r, s)
    else
      let vc :=
        if s.validationCache.length ≥ MAX_CACHE_SIZE then [] else s.validationCache
      (r, { s with validationCache := mapSet vc e r })

/-- `createCacheKey`: the expression text trimmed. -/
def createCacheKey (e : String) : String := jsTrim e

/-- `executeFunction`: runs the callable, coerces a non-numeric or
non-finite result to 0, and wraps any thrown fault. -/
def executeFunction (f : CompiledFn) (ctx : Ctx) : Except JsFault JSNum :=
  match f ctx with
  | .ok v =>
      .ok (match v with
           | .num n => if isFiniteNum n then n else .fin 0
           | _ => .fin 0)
  | .error _ => .error (.wrapped "Function execution failed")

/-- `clearOldestCacheEntries`: delete the first
`Math.floor(MAX_CACHE_SIZE * 0.3) = 300` entries in insertion order (keys
are unique, so deleting by key equals dropping the prefix). -/
def clearOldestCacheEntries (c : List (String × CompiledFn)) :
    List (String × CompiledFn) :=
  c.drop (3 * MAX_CACHE_SIZE / 10)

/-- `updateStats`: EMA latency with α = 0.1 and the approximate hit-rate
fold; called with `totalEvaluations` already incremented. -/
def updateStats (st : EvalStats) (elapsed wall : ℚ) (fromCache : Bool) : EvalStats :=
  let avg := st.averageEvaluationTime * (1 - 1 / 10) + elapsed * (1 / 10)
  let hits := (st.totalEvaluations : ℚ) * (st.cacheHitRate / 100)
  let rate :=
    if fromCache then ((hits + 1) / (st.totalEvaluations : ℚ)) * 100
    else (hits / (st.totalEvaluations : ℚ)) * 100
  { st with
      averageEvaluationTime := avg
      cacheHitRate := rate
      lastEvaluationTime := wall }

/-- The cache-hit path of `evaluate`'s `try` block: stats are updated (as a
hit) *before* the execution, whose fault — if any — escapes to the `catch`. -/
def evaluateHit (fn : CompiledFn) (ctx : Ctx) (elapsed wall : ℚ)
    (s₁ : EvalState) : Except JsFault JSNum × EvalState :=
  (executeFunction fn ctx,
    { s₁ with stats := updateStats s₁.stats elapsed wall true })

/-- The cache-miss path: compile (a failure escapes), evict if at capacity,
insert, execute (a fault escapes, with the insertion already performed),
then update stats and the success counter. -/
def evaluateMiss (M : MathModel) (e key : String) (ctx : Ctx) (elapsed wall : ℚ)
    (s₁ : EvalState) : Except JsFault JSNum × EvalState :=
  match compileExpression M e with
  | .error msg => (.error (.wrapped msg), s₁)
  | .ok fn =>
      let ec :=
        if s₁.expressionCache.length ≥ MAX_CACHE_SIZE then
          clearOldestCacheEntries s₁.expressionCache
        else s₁.expressionCache
      let s₂ := { s₁ with expressionCache := mapSet ec key fn }
      match executeFunction fn ctx with
      | .error f => (.error f, s₂)
      | .ok value =>
          let s₃ := { s₂ with stats := updateStats s₂.stats elapsed wall false }
          (.ok value,
            { s₃ with stats :=
                { s₃.stats with successfulEvaluations :=
                    s₃.stats.successfulEvaluations + 1 } })

/-- The `try` block after a passed validation: compiled-cache lookup keyed by
the trimmed text, then the hit or miss path. -/
def evaluateValid (M : MathModel) (e : String) (ctx : Ctx) (elapsed wall : ℚ)
    (s₁ : EvalState) : Except JsFault JSNum × EvalState :=
  match mapGet? s₁.expressionCache (createCacheKey e) with
  | some fn => evaluateHit fn ctx elapsed wall s₁
  | none => evaluateMiss M e (createCacheKey e) ctx elapsed wall s₁

/-- The `try` block of `evaluate` (entered with the total counter already
incremented): validation, then either the logged rejection (returning 0
without an exception) or the valid path.  A `.error` result is an exception
propagating to the `catch` block. -/
def evaluateTry (M : MathModel) (e : String) (ctx : Ctx) (elapsed wall : ℚ)
    (s₀ : EvalState) : Except JsFault JSNum × EvalState :=
  if !(validateExpressionS e s₀).1.isValid then
    (.ok (.fin 0),
      logError (validateExpressionS e s₀).2 "EXPRESSION_EVALUATION_ERROR"
        ("Invalid expression: " ++
          String.intercalate ", " (validateExpressionS e s₀).1.errors) wall)
  else evaluateValid M e ctx elapsed wall (validateExpressionS e s₀).2

/-- `this.stats.totalEvaluations++`, performed before the `try` block. -/
def incTotal (s : EvalState) : EvalState :=
  { s with stats :=
      { s.stats with totalEvaluations := s.stats.totalEvaluations + 1 } }

/-- `evaluate`: the façade.  Increments the total counter, runs the `try`
block, and converts any escaped exception into a logged recoverable error,
a failure count, and the numeric fallback 0. -/
def evaluate (M : MathModel) (e : String) (ctx : Ctx) (elapsed wall : ℚ)
    (s : EvalState) : JSNum × EvalState :=
  let r := evaluateTry M e ctx elapsed wall (incTotal s)
  match r.1 with
  | .ok v => (v, r.2)
  | .error _ =>
      let s'' := logError r.2 "EXPRESSION_EVALUATION_ERROR" "Evaluation failed" wall
      (.fin 0,
        { s'' with stats :=
            { s''.stats with failedEvaluations := s''.stats.failedEvaluations + 1 } })

/-- `clearCache`. -/
def clearCache (s : EvalState) : EvalState :=
  { s with expressionCache := [], validationCache := [] }

/-- `resetStats`. -/
def resetStats (s : EvalState) : EvalState :=
  { s with stats := ⟨0, 0, 0, 0, 0, 0⟩ }

/-- The derived `successRate` of `getEvaluationStats`. -/
def successRate (st : EvalStats) : ℚ :=
  if st.totalEvaluations > 0 then
    ((st.successfulEvaluations : ℚ) / (st.totalEvaluations : ℚ)) * 100
  else 0

/-- The derived `failureRate` of `getEvaluationStats`. -/
def failureRate (st : EvalStats) : ℚ := 100 - successRate st

/-- The derived `evaluationsPerSecond` of `getEvaluationStats` (`now` is the
current `Date.now()`). -/
def evaluationsPerSecond (st : EvalStats) (now : ℚ) : ℚ :=
  if now - st.lastEvaluationTime < 10000 then
    (st.totalEvaluations : ℚ) / ((now - st.lastEvaluationTime) / 1000)
  else 0

/-- States reachable from module load through the public operations. -/
inductive Reachable : EvalState → Prop where
  | init : Reachable initState
  | stepValidate (e : String) {s : EvalState} :
      Reachable s → Reachable (validateExpressionS e s).2
  | stepEvaluate (M : MathModel) (e : String) (ctx : Ctx) (elapsed wall : ℚ)
      {s : EvalState} :
      Reachable s → Reachable (evaluate M e ctx elapsed wall s).2
  | stepClearCache {s : EvalState} : Reachable s → Reachable (clearCache s)
  | stepResetStats {s : EvalState} : Reachable s → Reachable (resetStats s)

/-! ## Helper lemmas: whitespace and the deny-list -/

/-- Messages the deny-list scan pushes. -/
def forbiddenMsgs (e : String) : List String :=
  (forbiddenTests.filter fun p => p.2 e.data).map
    fun p => "Forbidden pattern detected: " ++ p.1



/-- Messages the allow-list check of call-like identifiers pushes. -/
def unknownFnMsgs (e : String) : List String :=
  ((scanCalls e).filter fun n => !inSafeMath n).map
    fun n => "Unknown or forbidden function: " ++ n



/-- The state invariant: the validation cache memoizes exactly `validatePure`
on non-blank keys, and both caches respect the capacity bound. -/
def CacheInv (s : EvalState) : Prop :=
  (∀ p ∈ s.validationCache, p.2 = validatePure p.1 ∧ jsTrim p.1 ≠ "") ∧
  s.validationCache.length ≤ MAX_CACHE_SIZE ∧
  s.expressionCache.length ≤ MAX_CACHE_SIZE



/-- The error text for overlength expressions. -/
def tooLongMsg : String := "Expression too long (max 2000 characters)"

/-- A fixed interpretation of the host math library used to instantiate the
theorems on concrete inputs (none of them calls a math function). -/
def trivialMathModel : MathModel :=
  ⟨fun _ _ => JSNum.nan, fun _ => JSNum.nan⟩

/-- The eight characters satisfying `isJsWs`. -/
def wsChars : List Char :=
  [' ', '\t', '\n', '\r', Char.ofNat 11, Char.ofNat 12, Char.ofNat 160,
   Char.ofNat 65279]

theorem mem_wsChars_of_isJsWs {c : Char} (h : isJsWs c = true) : c ∈ wsChars := by
  simp only [isJsWs, Bool.or_eq_true, decide_eq_true_eq] at h
  have hval : ∀ n : Nat, c.toNat = n → c = Char.ofNat n := by
    intro n hn
    subst hn
    exact (Char.ofNat_toNat c).symm
  rcases h with ((((((h | h) | h) | h) | h) | h) | h) | h <;>
    first
      | (subst h; simp [wsChars])
      | (rw [hval _ h]; simp [wsChars])

theorem all_ws_of_jsTrim_eq_empty {e : String} (h : jsTrim e = "") :
    ∀ c ∈ e.data, isJsWs c = true := by
  have hdata : jsTrimList e.data = [] := by
    have := congrArg String.data h
    simpa [jsTrim] using this
  unfold jsTrimList at hdata
  rw [List.reverse_eq_nil_iff, List.dropWhile_eq_nil_iff] at hdata
  intro c hc
  by_cases hw : isJsWs c = true
  · exact hw
  · exfalso
    have hsplit : c ∈ e.data.takeWhile isJsWs ++ e.data.dropWhile isJsWs := by
      rw [List.takeWhile_append_dropWhile]
      exact hc
    rcases List.mem_append.mp hsplit with hmem | hmem
    · exact hw (List.mem_takeWhile_imp hmem)
    · exact hw (hdata c (List.mem_reverse.mpr hmem))

theorem ciSearch_false_of_all_ws (lit : List Char) (cont : List Char → Bool)
    (l : List Char) (hl : ∀ c ∈ l, isJsWs c = true)
    (hstep : ∀ c l', isJsWs c = true → literalAt true lit (c :: l') = false) :
    ciSearch lit cont l = false := by
  induction l with
  | nil => rfl
  | cons c rest ih =>
    have hlit := hstep c rest (hl c (List.mem_cons_self c rest))
    simp only [ciSearch, hlit, Bool.false_and, Bool.false_or]
    exact ih fun c' hc' => hl c' (List.mem_cons_of_mem c hc')

theorem forbiddenHit_trim_ne {e : String} (h : forbiddenHit e = true) :
    jsTrim e ≠ "" := by
  intro htrim
  have hws := all_ws_of_jsTrim_eq_empty htrim
  unfold forbiddenHit forbiddenTests at h
  simp only [List.any_cons, List.any_nil, Bool.or_eq_true, Bool.or_eq_false_iff] at h
  rcases h with h|h|h|h|h|h|h|h|h|h|h|h|h|h|h|h|h|h|h|h
  all_goals
    rw [ciSearch_false_of_all_ws _ _ _ hws
      (by intro c l' hc; have h8 := mem_wsChars_of_isJsWs hc; fin_cases h8 <;> rfl)] at h
  all_goals
    try rw [ciSearch_false_of_all_ws _ _ _ hws
      (by intro c l' hc; have h8 := mem_wsChars_of_isJsWs hc; fin_cases h8 <;> rfl)] at h
  all_goals exact absurd h (by simp)

/-! ## Characterizations of the validator passes -/

theorem pushError_foldl {β : Type} (cond : β → Bool) (msg : β → String)
    (xs : List β) (r : ValidationResult) :
    xs.foldl (fun acc x => if cond x then pushError acc (msg x) else acc) r =
      { r with
          errors := r.errors ++ (xs.filter cond).map msg,
          isValid := r.isValid && ((xs.filter cond).isEmpty) } := by
  induction xs generalizing r with
  | nil => cases r; simp
  | cons x xs ih =>
    by_cases hc : cond x = true
    · rw [List.foldl_cons, if_pos hc, ih]
      simp [pushError, List.filter_cons_of_pos hc, List.append_assoc]
    · rw [List.foldl_cons, if_neg (by simpa using hc), ih]
      simp [List.filter_cons_of_neg (by simpa using hc)]

theorem validateSecurity_eq (e : String) (r : ValidationResult) :
    validateSecurity e r =
      { r with
          errors := r.errors ++ (forbiddenMsgs e ++ unknownFnMsgs e),
          isValid := r.isValid &&
            (forbiddenTests.filter fun p => p.2 e.data).isEmpty &&
            ((scanCalls e).filter fun n => !inSafeMath n).isEmpty } := by
  unfold validateSecurity
  rw [pushError_foldl, pushError_foldl]
  simp [forbiddenMsgs, unknownFnMsgs, List.append_assoc]

theorem analyzeComplexity_spec (e : String) (r : ValidationResult) :
    analyzeComplexity e r =
      { r with
          complexity := complexityValue e,
          warnings := r.warnings ++
            (if complexityValue e > 100 then
              ["High complexity expression may impact performance"] else []) ++
            (if complexityValue e > 500 then
              ["Extremely complex expression may cause significant performance issues"]
             else []) } := by
  by_cases h1 : complexityValue e > 100 <;>
    by_cases h2 : complexityValue e > 500 <;>
      simp [analyzeComplexity, pushWarning, h1, h2, List.append_assoc]

theorem extractDependencies_frame (e : String) (r : ValidationResult) :
    (extractDependencies e r).isValid = r.isValid ∧
    (extractDependencies e r).errors = r.errors ∧
    (extractDependencies e r).warnings = r.warnings ∧
    (extractDependencies e r).complexity = r.complexity := by
  by_cases h1 : (scanCalls e).isEmpty <;>
    by_cases h2 : (scanIdents e).isEmpty <;>
      simp [extractDependencies, h1, h2]

theorem validateSyntax_spec (e : String) (r : ValidationResult) :
    ∃ msgs warns : List String,
      validateSyntax e r =
        { r with
            errors := r.errors ++ msgs,
            warnings := r.warnings ++ warns,
            isValid := r.isValid && msgs.isEmpty } := by
  by_cases hb : hasBalancedParentheses e <;>
    by_cases hn : calculateNestingDepth e > 20 <;>
      by_cases hp : anyInvalidPattern e = true
  · exact ⟨["Nesting too deep (max 20 levels)"], ["Potentially invalid syntax detected"],
      by simp [validateSyntax, pushError, pushWarning, hb, hn, hp]⟩
  · exact ⟨["Nesting too deep (max 20 levels)"], [],
      by simp [validateSyntax, pushError, pushWarning, hb, hn, hp]⟩
  · exact ⟨[], ["Potentially invalid syntax detected"],
      by simp [validateSyntax, pushError, pushWarning, hb, hn, hp]⟩
  · exact ⟨[], [],
      by simp [validateSyntax, pushError, pushWarning, hb, hn, hp]⟩
  · exact ⟨["Unbalanced parentheses", "Nesting too deep (max 20 levels)"],
      ["Potentially invalid syntax detected"],
      by simp [validateSyntax, pushError, pushWarning, hb, hn, hp, List.append_assoc]⟩
  · exact ⟨["Unbalanced parentheses", "Nesting too deep (max 20 levels)"], [],
      by simp [validateSyntax, pushError, pushWarning, hb, hn, hp, List.append_assoc]⟩
  · exact ⟨["Unbalanced parentheses"], ["Potentially invalid syntax detected"],
      by simp [validateSyntax, pushError, pushWarning, hb, hn, hp]⟩
  · exact ⟨["Unbalanced parentheses"], [],
      by simp [validateSyntax, pushError, pushWarning, hb, hn, hp]⟩

theorem pipeline_spec (e : String) (r : ValidationResult) :
    ∃ synMsgs synWarns fu vu,
      extractDependencies e (analyzeComplexity e (validateSecurity e (validateSyntax e r))) =
        ⟨r.isValid && synMsgs.isEmpty &&
            (forbiddenTests.filter fun p => p.2 e.data).isEmpty &&
            ((scanCalls e).filter fun n => !inSafeMath n).isEmpty,
          r.errors ++ synMsgs ++ (forbiddenMsgs e ++ unknownFnMsgs e),
          r.warnings ++ synWarns ++
            ((if complexityValue e > 100 then
                ["High complexity expression may impact performance"] else []) ++
             (if complexityValue e > 500 then
                ["Extremely complex expression may cause significant performance issues"]
              else [])),
          complexityValue e, fu, vu⟩ := by
  obtain ⟨m, w, hs⟩ := validateSyntax_spec e r
  refine ⟨m, w,
    (extractDependencies e (analyzeComplexity e (validateSecurity e (validateSyntax e r)))).functionsUsed,
    (extractDependencies e (analyzeComplexity e (validateSecurity e (validateSyntax e r)))).variablesUsed,
    ?_⟩
  obtain ⟨hv, he, hw, hc⟩ :=
    extractDependencies_frame e (analyzeComplexity e (validateSecurity e (validateSyntax e r)))
  have heta :
      extractDependencies e (analyzeComplexity e (validateSecurity e (validateSyntax e r))) =
        ⟨(extractDependencies e (analyzeComplexity e (validateSecurity e (validateSyntax e r)))).isValid,
         (extractDependencies e (analyzeComplexity e (validateSecurity e (validateSyntax e r)))).errors,
         (extractDependencies e (analyzeComplexity e (validateSecurity e (validateSyntax e r)))).warnings,
         (extractDependencies e (analyzeComplexity e (validateSecurity e (validateSyntax e r)))).complexity,
         (extractDependencies e (analyzeComplexity e (validateSecurity e (validateSyntax e r)))).functionsUsed,
         (extractDependencies e (analyzeComplexity e (validateSecurity e (validateSyntax e r)))).variablesUsed⟩ :=
    rfl
  rw [heta, hv, he, hw, hc, analyzeComplexity_spec, validateSecurity_eq, hs]
  simp [List.append_assoc]

theorem validatePure_spec (e : String) (h : jsTrim e ≠ "") :
    ∃ synMsgs synWarns fu vu,
      validatePure e =
        ⟨(if 2000 < e.length then false else true) && synMsgs.isEmpty &&
            (forbiddenTests.filter fun p => p.2 e.data).isEmpty &&
            ((scanCalls e).filter fun n => !inSafeMath n).isEmpty,
          (if 2000 < e.length then [tooLongMsg] else []) ++ synMsgs ++
            (forbiddenMsgs e ++ unknownFnMsgs e),
          synWarns ++
            ((if complexityValue e > 100 then
                ["High complexity expression may impact performance"] else []) ++
             (if complexityValue e > 500 then
                ["Extremely complex expression may cause significant performance issues"]
              else [])),
          complexityValue e, fu, vu⟩ := by
  unfold validatePure
  rw [if_neg h]
  by_cases hl : 2000 < e.length
  · obtain ⟨m, w, fu, vu, hp⟩ :=
      pipeline_spec e (pushError initialResult tooLongMsg)
    refine ⟨m, w, fu, vu, ?_⟩
    rw [if_pos (by simpa using hl)]
    show extractDependencies e (analyzeComplexity e (validateSecurity e
      (validateSyntax e (pushError initialResult tooLongMsg)))) = _
    rw [hp]
    simp [pushError, initialResult, if_pos hl]
  · obtain ⟨m, w, fu, vu, hp⟩ := pipeline_spec e initialResult
    refine ⟨m, w, fu, vu, ?_⟩
    rw [if_neg (by simpa using hl)]
    show extractDependencies e (analyzeComplexity e (validateSecurity e
      (validateSyntax e initialResult))) = _
    rw [hp]
    simp [initialResult, if_neg hl]

theorem validatePure_wsOnly {e : String} (h : jsTrim e = "") :
    validatePure e = emptyExprResult := by
  simp [validatePure, h]

theorem validatePure_forbidden {e : String} (h : forbiddenHit e = true) :
    (validatePure e).isValid = false ∧
      ∃ name, ("Forbidden pattern detected: " ++ name) ∈ (validatePure e).errors := by
  have htrim := forbiddenHit_trim_ne h
  obtain ⟨p, hpmem, hphit⟩ := List.any_eq_true.mp h
  have hpfil : p ∈ forbiddenTests.filter fun q => q.2 e.data :=
    List.mem_filter.mpr ⟨hpmem, hphit⟩
  have hfne : (forbiddenTests.filter fun q => q.2 e.data).isEmpty = false := by
    cases hfil : List.filter (fun q => q.2 e.data) forbiddenTests with
    | nil => rw [hfil] at hpfil; cases hpfil
    | cons a l => rfl
  have hmsg : ("Forbidden pattern detected: " ++ p.1) ∈ forbiddenMsgs e := by
    unfold forbiddenMsgs
    exact List.mem_map.mpr ⟨p, hpfil, rfl⟩
  obtain ⟨m, w, fu, vu, hspec⟩ := validatePure_spec e htrim
  rw [hspec]
  constructor
  · simp [hfne]
  · exact ⟨p.1, by simp [hmsg]⟩

theorem validatePure_complexity {e : String} (h : jsTrim e ≠ "") :
    (validatePure e).complexity = complexityValue e := by
  obtain ⟨m, w, fu, vu, hspec⟩ := validatePure_spec e h
  rw [hspec]

/-- The exact tenths computation agrees with the rounded rational formula of
the source. -/
theorem complexityValue_eq_jsRound (e : String) :
    complexityValue e = jsRound (complexityScore e) := by
  unfold complexityValue complexityScore10 complexityScore jsRound
  generalize e.length = L
  generalize countClass isOpChar6 e.data = a
  generalize countClass (fun c => c = '(') e.data = b
  generalize countWordAlts ["sin", "cos", "tan", "exp", "log", "pow"] e = c
  generalize countWordAlts ["gamma", "hypot"] e = d
  have h : (L : ℚ) * (1 / 10) + (a : ℚ) * 1 + (b : ℚ) * 2 + (c : ℚ) * 3 +
      (d : ℚ) * 5 + 1 / 2 =
      ((L + 10 * a + 20 * b + 30 * c + 50 * d + 5 : ℕ) : ℚ) / ((10 : ℕ) : ℚ) := by
    push_cast
    ring
  rw [h, Int.floor_toNat, Nat.floor_div_eq_div]

/-! ## The cache invariant and its preservation -/

theorem mem_mapSet {α : Type} {m : List (String × α)} {k : String} {v : α}
    {p : String × α} (h : p ∈ mapSet m k v) : p = (k, v) ∨ p ∈ m := by
  unfold mapSet at h
  split at h
  · obtain ⟨q, hq, hfq⟩ := List.mem_map.mp h
    by_cases hqk : q.1 = k
    · rw [if_pos hqk] at hfq
      exact Or.inl hfq.symm
    · rw [if_neg hqk] at hfq
      exact Or.inr (hfq ▸ hq)
  · rcases List.mem_append.mp h with h | h
    · exact Or.inr h
    · left
      simpa using h

theorem length_mapSet {α : Type} (m : List (String × α)) (k : String) (v : α) :
    (mapSet m k v).length ≤ m.length + 1 := by
  unfold mapSet
  split
  · simp
  · simp

theorem cacheInv_initState : CacheInv initState := by
  refine ⟨?_, ?_, ?_⟩ <;> simp [initState, MAX_CACHE_SIZE]

theorem cacheInv_validateS (e : String) {s : EvalState} (h : CacheInv s) :
    CacheInv (validateExpressionS e s).2 := by
  obtain ⟨hmem, hvlen, helen⟩ := h
  unfold validateExpressionS
  cases hm : mapGet? s.validationCache e with
  | some r => exact ⟨hmem, hvlen, helen⟩
  | none =>
    by_cases ht : jsTrim e = ""
    · rw [if_pos ht]
      exact ⟨hmem, hvlen, helen⟩
    · rw [if_neg ht]
      refine ⟨?_, ?_, helen⟩
      · intro p hp
        rcases mem_mapSet hp with rfl | hp'
        · exact ⟨rfl, ht⟩
        · by_cases hcap : s.validationCache.length ≥ MAX_CACHE_SIZE
          · rw [if_pos hcap] at hp'
            cases hp'
          · rw [if_neg hcap] at hp'
            exact hmem p hp'
      · by_cases hcap : s.validationCache.length ≥ MAX_CACHE_SIZE
        · calc (mapSet (if s.validationCache.length ≥ MAX_CACHE_SIZE then []
                  else s.validationCache) e (validatePure e)).length
              ≤ (if s.validationCache.length ≥ MAX_CACHE_SIZE then ([] : List (String × ValidationResult))
                  else s.validationCache).length + 1 := length_mapSet _ _ _
            _ ≤ MAX_CACHE_SIZE := by rw [if_pos hcap]; simp [MAX_CACHE_SIZE]
        · calc (mapSet (if s.validationCache.length ≥ MAX_CACHE_SIZE then []
                  else s.validationCache) e (validatePure e)).length
              ≤ (if s.validationCache.length ≥ MAX_CACHE_SIZE then ([] : List (String × ValidationResult))
                  else s.validationCache).length + 1 := length_mapSet _ _ _
            _ ≤ MAX_CACHE_SIZE := by rw [if_neg hcap]; omega

theorem exprCache_insert_le {c : List (String × CompiledFn)}
    (hc : c.length ≤ MAX_CACHE_SIZE) (k : String) (fn : CompiledFn) :
    (mapSet (if c.length ≥ MAX_CACHE_SIZE then clearOldestCacheEntries c else c)
        k fn).length ≤ MAX_CACHE_SIZE := by
  by_cases hfull : c.length ≥ MAX_CACHE_SIZE
  · calc (mapSet (if c.length ≥ MAX_CACHE_SIZE then clearOldestCacheEntries c else c)
          k fn).length
        ≤ (if c.length ≥ MAX_CACHE_SIZE then clearOldestCacheEntries c else c).length + 1 :=
          length_mapSet _ _ _
      _ ≤ MAX_CACHE_SIZE := by
          rw [if_pos hfull]
          unfold clearOldestCacheEntries
          simp only [List.length_drop]
          simp only [MAX_CACHE_SIZE] at hc ⊢
          omega
  · calc (mapSet (if c.length ≥ MAX_CACHE_SIZE then clearOldestCacheEntries c else c)
          k fn).length
        ≤ (if c.length ≥ MAX_CACHE_SIZE then clearOldestCacheEntries c else c).length + 1 :=
          length_mapSet _ _ _
      _ ≤ MAX_CACHE_SIZE := by rw [if_neg hfull]; omega

theorem cacheInv_evaluateMiss (M : MathModel) (e key : String) (ctx : Ctx)
    (elapsed wall : ℚ) {s₁ : EvalState} (h : CacheInv s₁) :
    CacheInv (evaluateMiss M e key ctx elapsed wall s₁).2 := by
  unfold evaluateMiss
  cases hc : compileExpression M e with
  | error msg => exact h
  | ok fn =>
    dsimp only
    cases he : executeFunction fn ctx with
    | error f => exact ⟨h.1, h.2.1, exprCache_insert_le h.2.2 _ _⟩
    | ok v => exact ⟨h.1, h.2.1, exprCache_insert_le h.2.2 _ _⟩

theorem cacheInv_evaluateValid (M : MathModel) (e : String) (ctx : Ctx)
    (elapsed wall : ℚ) {s₁ : EvalState} (h : CacheInv s₁) :
    CacheInv (evaluateValid M e ctx elapsed wall s₁).2 := by
  unfold evaluateValid
  cases hg : mapGet? s₁.expressionCache (createCacheKey e) with
  | some fn => exact h
  | none => exact cacheInv_evaluateMiss M e _ ctx elapsed wall h

theorem cacheInv_evaluateTry (M : MathModel) (e : String) (ctx : Ctx)
    (elapsed wall : ℚ) {s : EvalState} (h : CacheInv s) :
    CacheInv (evaluateTry M e ctx elapsed wall s).2 := by
  have h₁ : CacheInv (validateExpressionS e s).2 := cacheInv_validateS e h
  unfold evaluateTry
  cases hv : (validateExpressionS e s).1.isValid with
  | false => exact h₁
  | true => exact cacheInv_evaluateValid M e ctx elapsed wall h₁

theorem cacheInv_evaluate (M : MathModel) (e : String) (ctx : Ctx)
    (elapsed wall : ℚ) {s : EvalState} (h : CacheInv s) :
    CacheInv (evaluate M e ctx elapsed wall s).2 := by
  have h₀ : CacheInv (incTotal s) := h
  have ht := cacheInv_evaluateTry M e ctx elapsed wall h₀
  unfold evaluate
  cases hr : evaluateTry M e ctx elapsed wall (incTotal s) with
  | mk res s' =>
    rw [hr] at ht
    cases res with
    | ok v => exact ht
    | error f => exact ht

theorem mapGet?_eq_some {α : Type} {m : List (String × α)} {k : String} {v : α}
    (h : mapGet? m k = some v) : ∃ p ∈ m, p.1 = k ∧ p.2 = v := by
  unfold mapGet? at h
  cases hf : m.find? (fun p => p.1 = k) with
  | none => rw [hf] at h; cases h
  | some p =>
    rw [hf] at h
    refine ⟨p, List.mem_of_find?_eq_some hf, ?_, ?_⟩
    · simpa using List.find?_some hf
    · simpa using h

/-- Under the invariant, the stateful validation always returns the pure
validation result. -/
theorem validateS_result (e : String) {s : EvalState} (h : CacheInv s) :
    (validateExpressionS e s).1 = validatePure e := by
  unfold validateExpressionS
  cases hm : mapGet? s.validationCache e with
  | some r =>
    obtain ⟨p, hpm, hpk, hpv⟩ := mapGet?_eq_some hm
    have := (h.1 p hpm).1
    simp only [← hpv, this, hpk]
  | none =>
    by_cases ht : jsTrim e = ""
    · rw [if_pos ht]
    · rw [if_neg ht]

/-- The stateful validation touches nothing but the validation cache. -/
theorem validateS_frame (e : String) (s : EvalState) :
    (validateExpressionS e s).2.stats = s.stats ∧
    (validateExpressionS e s).2.expressionCache = s.expressionCache ∧
    (validateExpressionS e s).2.errorLog = s.errorLog := by
  unfold validateExpressionS
  cases hm : mapGet? s.validationCache e with
  | some r => exact ⟨rfl, rfl, rfl⟩
  | none =>
    by_cases ht : jsTrim e = ""
    · rw [if_pos ht]; exact ⟨rfl, rfl, rfl⟩
    · rw [if_neg ht]; exact ⟨rfl, rfl, rfl⟩

/-- Under the invariant, validating a blank expression recomputes the fixed
result and leaves the state (in particular the validation cache) unchanged. -/
theorem validateS_wsOnly (e : String) {s : EvalState} (h : CacheInv s)
    (ht : jsTrim e = "") :
    validateExpressionS e s = (emptyExprResult, s) := by
  unfold validateExpressionS
  cases hm : mapGet? s.validationCache e with
  | some r =>
    obtain ⟨p, hpm, hpk, _⟩ := mapGet?_eq_some hm
    exact absurd (hpk ▸ ht) (h.1 p hpm).2
  | none =>
    rw [if_pos ht, validatePure_wsOnly ht]

theorem cacheInv_reachable {s : EvalState} (h : Reachable s) : CacheInv s := by
  induction h with
  | init => exact cacheInv_initState
  | stepValidate e _ ih => exact cacheInv_validateS e ih
  | stepEvaluate M e ctx elapsed wall _ ih => exact cacheInv_evaluate M e ctx elapsed wall ih
  | stepClearCache _ ih => exact ⟨by simp [clearCache], by simp [clearCache], by simp [clearCache]⟩
  | stepResetStats _ ih => exact ih

/-! ## Path lemmas for `evaluate` -/

theorem updateStats_failed (st : EvalStats) (elapsed wall : ℚ) (b : Bool) :
    (updateStats st elapsed wall b).failedEvaluations = st.failedEvaluations := rfl

theorem updateStats_counts (st : EvalStats) (elapsed wall : ℚ) (b : Bool) :
    (updateStats st elapsed wall b).totalEvaluations = st.totalEvaluations ∧
    (updateStats st elapsed wall b).successfulEvaluations = st.successfulEvaluations := ⟨rfl, rfl⟩

theorem evaluateHit_failed (fn : CompiledFn) (ctx : Ctx) (elapsed wall : ℚ)
    (s₁ : EvalState) :
    (evaluateHit fn ctx elapsed wall s₁).2.stats.failedEvaluations =
      s₁.stats.failedEvaluations := rfl

theorem evaluateMiss_failed (M : MathModel) (e key : String) (ctx : Ctx)
    (elapsed wall : ℚ) (s₁ : EvalState) :
    (evaluateMiss M e key ctx elapsed wall s₁).2.stats.failedEvaluations =
      s₁.stats.failedEvaluations := by
  unfold evaluateMiss
  cases hc : compileExpression M e with
  | error msg => rfl
  | ok fn =>
    dsimp only
    cases he : executeFunction fn ctx with
    | error f => rfl
    | ok v => rfl

theorem evaluateValid_failed (M : MathModel) (e : String) (ctx : Ctx)
    (elapsed wall : ℚ) (s₁ : EvalState) :
    (evaluateValid M e ctx elapsed wall s₁).2.stats.failedEvaluations =
      s₁.stats.failedEvaluations := by
  unfold evaluateValid
  cases hg : mapGet? s₁.expressionCache (createCacheKey e) with
  | some fn => exact evaluateHit_failed fn ctx elapsed wall s₁
  | none =>
    dsimp only
    exact evaluateMiss_failed M e (createCacheKey e) ctx elapsed wall s₁

theorem evaluateTry_failed (M : MathModel) (e : String) (ctx : Ctx)
    (elapsed wall : ℚ) (s₀ : EvalState) :
    (evaluateTry M e ctx elapsed wall s₀).2.stats.failedEvaluations =
      s₀.stats.failedEvaluations := by
  unfold evaluateTry
  cases hv : (validateExpressionS e s₀).1.isValid with
  | false => exact congrArg EvalStats.failedEvaluations (validateS_frame e s₀).1
  | true =>
    exact (evaluateValid_failed M e ctx elapsed wall _).trans
      (congrArg EvalStats.failedEvaluations (validateS_frame e s₀).1)

/-- The failure counter moves only when an exception reaches the `catch`
block of the façade. -/
theorem evaluate_failed_only_on_catch (M : MathModel) (e : String) (ctx : Ctx)
    (elapsed wall : ℚ) (s : EvalState)
    (h : (evaluate M e ctx elapsed wall s).2.stats.failedEvaluations ≠
      s.stats.failedEvaluations) :
    ∃ f, (evaluateTry M e ctx elapsed wall (incTotal s)).1 = .error f := by
  have hfail := evaluateTry_failed M e ctx elapsed wall (incTotal s)
  cases hr : evaluateTry M e ctx elapsed wall (incTotal s) with
  | mk res s' =>
    rw [hr] at hfail
    cases res with
    | ok v =>
      exfalso
      apply h
      show ((evaluate M e ctx elapsed wall s).2).stats.failedEvaluations = _
      unfold evaluate
      rw [hr]
      exact hfail
    | error f => exact ⟨f, rfl⟩

/-- The full frame of a validation-rejected call: the total counter moves by
one, everything else in the stats and the compiled cache stay fixed, and the
result is 0. -/
theorem evaluate_invalid (M : MathModel) (e : String) (ctx : Ctx)
    (elapsed wall : ℚ) {s : EvalState} (h : CacheInv s)
    (hv : (validatePure e).isValid = false) :
    (evaluate M e ctx elapsed wall s).1 = JSNum.fin 0 ∧
    (evaluate M e ctx elapsed wall s).2.stats.totalEvaluations =
      s.stats.totalEvaluations + 1 ∧
    (evaluate M e ctx elapsed wall s).2.stats.successfulEvaluations =
      s.stats.successfulEvaluations ∧
    (evaluate M e ctx elapsed wall s).2.stats.failedEvaluations =
      s.stats.failedEvaluations ∧
    (evaluate M e ctx elapsed wall s).2.stats.averageEvaluationTime =
      s.stats.averageEvaluationTime ∧
    (evaluate M e ctx elapsed wall s).2.stats.cacheHitRate =
      s.stats.cacheHitRate ∧
    (evaluate M e ctx elapsed wall s).2.expressionCache = s.expressionCache := by
  have h₀ : CacheInv (incTotal s) := h
  have hres := validateS_result e h₀
  have hfr := validateS_frame e (incTotal s)
  have htry : evaluateTry M e ctx elapsed wall (incTotal s) =
      (.ok (.fin 0),
        logError (validateExpressionS e (incTotal s)).2 "EXPRESSION_EVALUATION_ERROR"
          ("Invalid expression: " ++
            String.intercalate ", " (validatePure e).errors) wall) := by
    unfold evaluateTry
    rw [hres, hv]
    rfl
  have heval : evaluate M e ctx elapsed wall s =
      (JSNum.fin 0,
        logError (validateExpressionS e (incTotal s)).2 "EXPRESSION_EVALUATION_ERROR"
          ("Invalid expression: " ++
            String.intercalate ", " (validatePure e).errors) wall) := by
    unfold evaluate
    rw [htry]
  rw [heval]
  simp only [logError]
  refine ⟨?_, ?_, ?_, ?_, ?_, ?_⟩ <;>
    · simp only [hfr.1, hfr.2.1]
      try simp [incTotal]

theorem executeFunction_ok_fin {f : CompiledFn} {ctx : Ctx} {n : JSNum}
    (h : executeFunction f ctx = .ok n) : ∃ q, n = .fin q := by
  unfold executeFunction at h
  cases hf : f ctx with
  | error err => rw [hf] at h; cases h
  | ok v =>
    rw [hf] at h
    cases v with
    | num m =>
      cases m with
      | fin q => exact ⟨q, by simpa [isFiniteNum] using h.symm⟩
      | nan => exact ⟨0, by simpa [isFiniteNum] using h.symm⟩
      | inf => exact ⟨0, by simpa [isFiniteNum] using h.symm⟩
      | ninf => exact ⟨0, by simpa [isFiniteNum] using h.symm⟩
    | undefinedVal => exact ⟨0, by simpa using h.symm⟩
    | numObj fields => exact ⟨0, by simpa using h.symm⟩
    | mathObj => exact ⟨0, by simpa using h.symm⟩
    | mathFn name => exact ⟨0, by simpa using h.symm⟩

theorem evaluateMiss_log (M : MathModel) (e key : String) (ctx : Ctx)
    (elapsed wall : ℚ) (s₁ : EvalState) :
    (evaluateMiss M e key ctx elapsed wall s₁).2.errorLog = s₁.errorLog := by
  unfold evaluateMiss
  cases hc : compileExpression M e with
  | error msg => rfl
  | ok fn =>
    dsimp only
    cases he : executeFunction fn ctx with
    | error f => rfl
    | ok v => rfl

theorem evaluateValid_log (M : MathModel) (e : String) (ctx : Ctx)
    (elapsed wall : ℚ) (s₁ : EvalState) :
    (evaluateValid M e ctx elapsed wall s₁).2.errorLog = s₁.errorLog := by
  unfold evaluateValid
  cases hg : mapGet? s₁.expressionCache (createCacheKey e) with
  | some fn => rfl
  | none =>
    dsimp only
    exact evaluateMiss_log M e (createCacheKey e) ctx elapsed wall s₁

theorem evaluateMiss_ok_fin (M : MathModel) (e key : String) (ctx : Ctx)
    (elapsed wall : ℚ) (s₁ : EvalState) :
    ∀ v, (evaluateMiss M e key ctx elapsed wall s₁).1 = .ok v → ∃ q, v = .fin q := by
  unfold evaluateMiss
  cases hc : compileExpression M e with
  | error msg => intro v hv; cases hv
  | ok fn =>
    dsimp only
    cases he : executeFunction fn ctx with
    | error f => intro v hv; cases hv
    | ok value =>
      intro v hv
      obtain rfl : value = v := by simpa using hv
      exact executeFunction_ok_fin he

theorem evaluateValid_ok_fin (M : MathModel) (e : String) (ctx : Ctx)
    (elapsed wall : ℚ) (s₁ : EvalState) :
    ∀ v, (evaluateValid M e ctx elapsed wall s₁).1 = .ok v → ∃ q, v = .fin q := by
  unfold evaluateValid
  cases hg : mapGet? s₁.expressionCache (createCacheKey e) with
  | some fn =>
    intro v hv
    exact executeFunction_ok_fin hv
  | none =>
    dsimp only
    exact evaluateMiss_ok_fin M e (createCacheKey e) ctx elapsed wall s₁

/-- Every run of the `try` block either leaves the error log alone (and any
normal return value is a finite number), or logs exactly one recoverable
record and returns 0 normally (the validation-rejection path). -/
theorem evaluateTry_cases (M : MathModel) (e : String) (ctx : Ctx)
    (elapsed wall : ℚ) (s₀ : EvalState) :
    ((evaluateTry M e ctx elapsed wall s₀).2.errorLog = s₀.errorLog ∧
      ∀ v, (evaluateTry M e ctx elapsed wall s₀).1 = .ok v → ∃ q, v = .fin q) ∨
    ((evaluateTry M e ctx elapsed wall s₀).1 = .ok (.fin 0) ∧
      ∃ rec, (evaluateTry M e ctx elapsed wall s₀).2.errorLog = rec :: s₀.errorLog ∧
        rec.recoverable = true ∧ rec.type = "EXPRESSION_EVALUATION_ERROR") := by
  unfold evaluateTry
  cases hv : (validateExpressionS e s₀).1.isValid with
  | false =>
    right
    refine ⟨rfl, ⟨"EXPRESSION_EVALUATION_ERROR",
      "Invalid expression: " ++
        String.intercalate ", " (validateExpressionS e s₀).1.errors,
      wall, true⟩, ?_, rfl, rfl⟩
    show (logError (validateExpressionS e s₀).2 _ _ _).errorLog = _
    rw [logError, (validateS_frame e s₀).2.2]
  | true =>
    left
    constructor
    · exact (evaluateValid_log M e ctx elapsed wall _).trans (validateS_frame e s₀).2.2
    · exact evaluateValid_ok_fin M e ctx elapsed wall _

/-- The façade always returns a finite number without raising, and the error
log grows exactly when the numeric fallback 0 is produced, by one
recoverable record. -/
theorem evaluate_shape (M : MathModel) (e : String) (ctx : Ctx)
    (elapsed wall : ℚ) (s : EvalState) :
    ∃ q, (evaluate M e ctx elapsed wall s).1 = JSNum.fin q ∧
      ((evaluate M e ctx elapsed wall s).2.errorLog = s.errorLog ∨
        (q = 0 ∧ ∃ rec,
          (evaluate M e ctx elapsed wall s).2.errorLog = rec :: s.errorLog ∧
          rec.recoverable = true ∧ rec.type = "EXPRESSION_EVALUATION_ERROR")) := by
  have hcases := evaluateTry_cases M e ctx elapsed wall (incTotal s)
  have hlog₀ : (incTotal s).errorLog = s.errorLog := rfl
  cases hr : evaluateTry M e ctx elapsed wall (incTotal s) with
  | mk res s' =>
    rw [hr] at hcases
    cases res with
    | ok v =>
      rcases hcases with ⟨hlog, hfin⟩ | ⟨hval, rec, hlog, hrec, htype⟩
      · obtain ⟨q, rfl⟩ := hfin v rfl
        refine ⟨q, ?_, Or.inl ?_⟩
        · unfold evaluate; rw [hr]
        · show (evaluate M e ctx elapsed wall s).2.errorLog = _
          unfold evaluate; rw [hr]
          exact hlog.trans hlog₀
      · obtain rfl : v = .fin 0 := by simpa using hval
        refine ⟨0, ?_, Or.inr ⟨rfl, rec, ?_, hrec, htype⟩⟩
        · unfold evaluate; rw [hr]
        · show (evaluate M e ctx elapsed wall s).2.errorLog = _
          unfold evaluate; rw [hr]
          exact hlog.trans (by rw [hlog₀])
    | error f =>
      rcases hcases with ⟨hlog, _⟩ | ⟨hval, _⟩
      · refine ⟨0, ?_, Or.inr ⟨rfl,
          ⟨"EXPRESSION_EVALUATION_ERROR", "Evaluation failed", wall, true⟩,
          ?_, rfl, rfl⟩⟩
        · unfold evaluate; rw [hr]
        · show (evaluate M e ctx elapsed wall s).2.errorLog = _
          unfold evaluate; rw [hr]
          show (⟨"EXPRESSION_EVALUATION_ERROR", "Evaluation failed", wall, true⟩ :
              AppErrorRec) :: s'.errorLog = _
          rw [hlog, hlog₀]
      · cases hval

theorem find?_map_update {α : Type} (m : List (String × α)) (k : String) (v : α) :
    (m.map fun p => if p.1 = k then (k, v) else p).find? (fun p => p.1 = k) =
      if mapHas m k then some (k, v) else none := by
  induction m with
  | nil => simp [mapHas]
  | cons a rest ih =>
    by_cases hak : a.1 = k
    · simp [mapHas, List.find?_cons, hak]
    · have hhead : mapHas (a :: rest) k = mapHas rest k := by
        simp [mapHas, hak]
      rw [List.map_cons, if_neg hak, List.find?_cons,
        show (decide (a.1 = k)) = false by simpa using hak, ih, hhead]

theorem mapGet?_mapSet_self {α : Type} (m : List (String × α)) (k : String) (v : α) :
    mapGet? (mapSet m k v) k = some v := by
  unfold mapSet
  by_cases hhas : mapHas m k
  · rw [if_pos hhas]
    unfold mapGet?
    rw [find?_map_update, if_pos hhas]
    rfl
  · rw [if_neg hhas]
    unfold mapGet?
    have hnone : m.find? (fun p => p.1 = k) = none := by
      rw [List.find?_eq_none]
      intro x hx hk
      exact hhas (List.any_eq_true.mpr ⟨x, hx, hk⟩)
    rw [List.find?_append, hnone]
    simp

/-- A valid, uncached, compilable expression gets its compiled callable
inserted under the trimmed-text key. -/
theorem evaluate_miss_inserts (M : MathModel) (e : String) (ctx : Ctx)
    (elapsed wall : ℚ) {s : EvalState} (h : CacheInv s)
    (hv : (validatePure e).isValid = true)
    (hm : mapGet? s.expressionCache (createCacheKey e) = none)
    (hc : ∃ g, compileExpression M e = .ok g) :
    (mapGet? (evaluate M e ctx elapsed wall s).2.expressionCache
      (createCacheKey e)).isSome = true := by
  obtain ⟨g, hg⟩ := hc
  have h₀ : CacheInv (incTotal s) := h
  have hres := validateS_result e h₀
  have hfr := validateS_frame e (incTotal s)
  have hm₁ : mapGet? (validateExpressionS e (incTotal s)).2.expressionCache
      (createCacheKey e) = none := by
    rw [hfr.2.1]; exact hm
  have htry : (evaluateTry M e ctx elapsed wall (incTotal s)).2.expressionCache =
      mapSet
        (if (validateExpressionS e (incTotal s)).2.expressionCache.length ≥ MAX_CACHE_SIZE
         then clearOldestCacheEntries (validateExpressionS e (incTotal s)).2.expressionCache
         else (validateExpressionS e (incTotal s)).2.expressionCache)
        (createCacheKey e) g := by
    unfold evaluateTry
    rw [hres, hv]
    show (evaluateValid M e ctx elapsed wall
      (validateExpressionS e (incTotal s)).2).2.expressionCache = _
    unfold evaluateValid
    rw [hm₁]
    unfold evaluateMiss
    rw [hg]
    dsimp only
    cases he : executeFunction g ctx with
    | error f => rfl
    | ok value => rfl
  cases hr : evaluateTry M e ctx elapsed wall (incTotal s) with
  | mk res s' =>
    have hs' : s'.expressionCache =
        mapSet
          (if (validateExpressionS e (incTotal s)).2.expressionCache.length ≥ MAX_CACHE_SIZE
           then clearOldestCacheEntries (validateExpressionS e (incTotal s)).2.expressionCache
           else (validateExpressionS e (incTotal s)).2.expressionCache)
          (createCacheKey e) g := by
      have hcopy := htry
      rw [hr] at hcopy
      exact hcopy
    have hfinal : (evaluate M e ctx elapsed wall s).2.expressionCache =
        s'.expressionCache := by
      unfold evaluate
      rw [hr]
      cases res with
      | ok v => rfl
      | error f => rfl
    rw [hfinal, hs', mapGet?_mapSet_self]
    rfl

theorem jsTrim_replicate_space (n : ℕ) :
    jsTrim (String.mk (List.replicate n ' ')) = "" := by
  unfold jsTrim jsTrimList
  have h : List.dropWhile isJsWs (List.replicate n ' ') = [] := by
    rw [List.dropWhile_eq_nil_iff]
    intro x hx
    rw [List.eq_of_mem_replicate hx]
    decide
  rw [show (String.mk (List.replicate n ' ')).data = List.replicate n ' ' from rfl, h]
  rfl

theorem jsTrim_replicate_x (n : ℕ) :
    jsTrim (String.mk (List.replicate (n + 1) 'x')) ≠ "" := by
  intro h
  have hall := all_ws_of_jsTrim_eq_empty h
  have hx : isJsWs 'x' = true :=
    hall 'x' (by simp [List.mem_replicate])
  simp [isJsWs] at hx

theorem length_mk_replicate (n : ℕ) (c : Char) :
    (String.mk (List.replicate n c)).length = n := by
  rw [show (String.mk (List.replicate n c)).length = (List.replicate n c).length from rfl,
    List.length_replicate]

/-- When the `try` block raises, the `catch` block of the façade returns the
fallback 0 and prepends the one recoverable "Evaluation failed" record. -/
theorem evaluate_catch (M : MathModel) (e : String) (ctx : Ctx)
    (elapsed wall : ℚ) (s : EvalState) (f : JsFault)
    (h : (evaluateTry M e ctx elapsed wall (incTotal s)).1 = .error f) :
    (evaluate M e ctx elapsed wall s).1 = JSNum.fin 0 ∧
    (evaluate M e ctx elapsed wall s).2.errorLog =
      (⟨"EXPRESSION_EVALUATION_ERROR", "Evaluation failed", wall, true⟩ :
        AppErrorRec) :: s.errorLog := by
  have hcases := evaluateTry_cases M e ctx elapsed wall (incTotal s)
  have hlog₀ : (incTotal s).errorLog = s.errorLog := rfl
  cases hr : evaluateTry M e ctx elapsed wall (incTotal s) with
  | mk res s' =>
    rw [hr] at hcases h
    cases res with
    | ok v => simp at h
    | error g =>
      rcases hcases with ⟨hlog, _⟩ | ⟨hval, _⟩
      · constructor
        · unfold evaluate; rw [hr]
        · show (evaluate M e ctx elapsed wall s).2.errorLog = _
          unfold evaluate; rw [hr]
          show (⟨"EXPRESSION_EVALUATION_ERROR", "Evaluation failed", wall, true⟩ :
              AppErrorRec) :: s'.errorLog = _
          rw [hlog, hlog₀]
      · cases hval

/-- A validation rejection returns the fallback 0 and prepends the one
recoverable "Invalid expression" record carrying the validation errors. -/
theorem evaluate_rejected (M : MathModel) (e : String) (ctx : Ctx)
    (elapsed wall : ℚ) {s : EvalState} (h : CacheInv s)
    (hv : (validatePure e).isValid = false) :
    (evaluate M e ctx elapsed wall s).1 = JSNum.fin 0 ∧
    (evaluate M e ctx elapsed wall s).2.errorLog =
      (⟨"EXPRESSION_EVALUATION_ERROR",
        "Invalid expression: " ++
          String.intercalate ", " (validatePure e).errors, wall, true⟩ :
        AppErrorRec) :: s.errorLog := by
  have h₀ : CacheInv (incTotal s) := h
  have hres := validateS_result e h₀
  have hfr := validateS_frame e (incTotal s)
  have hlog₀ : (incTotal s).errorLog = s.errorLog := rfl
  have htry : evaluateTry M e ctx elapsed wall (incTotal s) =
      (.ok (.fin 0),
        logError (validateExpressionS e (incTotal s)).2 "EXPRESSION_EVALUATION_ERROR"
          ("Invalid expression: " ++
            String.intercalate ", " (validatePure e).errors) wall) := by
    unfold evaluateTry
    rw [hres, hv]
    rfl
  have heval : evaluate M e ctx elapsed wall s =
      (JSNum.fin 0,
        logError (validateExpressionS e (incTotal s)).2 "EXPRESSION_EVALUATION_ERROR"
          ("Invalid expression: " ++
            String.intercalate ", " (validatePure e).errors) wall) := by
    unfold evaluate
    rw [htry]
  rw [heval]
  refine ⟨rfl, ?_⟩
  show (⟨"EXPRESSION_EVALUATION_ERROR",
      "Invalid expression: " ++
        String.intercalate ", " (validatePure e).errors, wall, true⟩ :
      AppErrorRec) :: (validateExpressionS e (incTotal s)).2.errorLog = _
  rw [hfr.2.2, hlog₀]

/-- After a passed validation the `try` block continues as the valid path on
the post-validation state. -/
theorem evaluateTry_of_valid (M : MathModel) (e : String) (ctx : Ctx)
    (elapsed wall : ℚ) {s₀ : EvalState} (h : CacheInv s₀)
    (hv : (validatePure e).isValid = true) :
    evaluateTry M e ctx elapsed wall s₀ =
      evaluateValid M e ctx elapsed wall (validateExpressionS e s₀).2 := by
  unfold evaluateTry
  rw [validateS_result e h, hv]
  rfl

/-- A compile failure on the miss path escapes the valid path as the wrapped
exception. -/
theorem evaluateValid_miss_compile_error (M : MathModel) (e : String)
    (ctx : Ctx) (elapsed wall : ℚ) (s₁ : EvalState)
    (hm : mapGet? s₁.expressionCache (createCacheKey e) = none)
    (msg : String) (hc : compileExpression M e = .error msg) :
    (evaluateValid M e ctx elapsed wall s₁).1 = .error (.wrapped msg) := by
  unfold evaluateValid
  rw [hm]
  show (evaluateMiss M e (createCacheKey e) ctx elapsed wall s₁).1 = _
  unfold evaluateMiss
  rw [hc]

/-- A runtime fault of the executed callable — whether found in the cache or
just compiled — escapes the valid path. -/
theorem evaluateValid_exec_fault (M : MathModel) (e : String) (ctx : Ctx)
    (elapsed wall : ℚ) (s₁ : EvalState) (fn : CompiledFn) (f : JsFault)
    (hcase : mapGet? s₁.expressionCache (createCacheKey e) = some fn ∨
      (mapGet? s₁.expressionCache (createCacheKey e) = none ∧
        compileExpression M e = .ok fn))
    (hf : executeFunction fn ctx = .error f) :
    (evaluateValid M e ctx elapsed wall s₁).1 = .error f := by
  unfold evaluateValid
  rcases hcase with hm | ⟨hm, hc⟩
  · rw [hm]
    show (evaluateHit fn ctx elapsed wall s₁).1 = _
    exact hf
  · rw [hm]
    show (evaluateMiss M e (createCacheKey e) ctx elapsed wall s₁).1 = _
    unfold evaluateMiss
    rw [hc]
    dsimp only
    rw [hf]

/-! ## The claims -/

/-- C1: at every reachable state, for every expression text and every
evaluation context, `evaluate` returns a finite number and never propagates
an exception (in the model its result type carries faults, and none
escapes), and the log grows only when the fallback 0 is produced, by one
recoverable record; moreover every failure path produces the fallback —
a validation rejection returns 0 and prepends one recoverable
`EXPRESSION_EVALUATION_ERROR` record carrying the validation errors, a
compile failure (valid, uncached, `compileExpression` erring) returns 0 and
prepends one recoverable record, and a runtime fault of the executed
callable (found in the cache or just compiled) returns 0 and prepends one
recoverable record. -/
theorem spec_C1_evaluate_total_finite_fallback (M : MathModel) (e : String)
    (ctx : Ctx) (elapsed wall : ℚ) (s : EvalState) (hs : Reachable s) :
    (∃ q, (evaluate M e ctx elapsed wall s).1 = JSNum.fin q ∧
      ((evaluate M e ctx elapsed wall s).2.errorLog = s.errorLog ∨
        (q = 0 ∧ ∃ rec,
          (evaluate M e ctx elapsed wall s).2.errorLog = rec :: s.errorLog ∧
          rec.recoverable = true ∧ rec.type = "EXPRESSION_EVALUATION_ERROR"))) ∧
    ((validatePure e).isValid = false →
      (evaluate M e ctx elapsed wall s).1 = JSNum.fin 0 ∧
      (evaluate M e ctx elapsed wall s).2.errorLog =
        (⟨"EXPRESSION_EVALUATION_ERROR",
          "Invalid expression: " ++
            String.intercalate ", " (validatePure e).errors, wall, true⟩ :
          AppErrorRec) :: s.errorLog) ∧
    ((validatePure e).isValid = true →
      mapGet? s.expressionCache (createCacheKey e) = none →
      ∀ msg, compileExpression M e = .error msg →
        (evaluate M e ctx elapsed wall s).1 = JSNum.fin 0 ∧
        (evaluate M e ctx elapsed wall s).2.errorLog =
          (⟨"EXPRESSION_EVALUATION_ERROR", "Evaluation failed", wall, true⟩ :
            AppErrorRec) :: s.errorLog) ∧
    ((validatePure e).isValid = true →
      ∀ fn, (mapGet? s.expressionCache (createCacheKey e) = some fn ∨
          (mapGet? s.expressionCache (createCacheKey e) = none ∧
            compileExpression M e = .ok fn)) →
        ∀ f, executeFunction fn ctx = .error f →
          (evaluate M e ctx elapsed wall s).1 = JSNum.fin 0 ∧
          (evaluate M e ctx elapsed wall s).2.errorLog =
            (⟨"EXPRESSION_EVALUATION_ERROR", "Evaluation failed", wall, true⟩ :
              AppErrorRec) :: s.errorLog) := by
  have h := cacheInv_reachable hs
  have h₀ : CacheInv (incTotal s) := h
  have hfr := validateS_frame e (incTotal s)
  refine ⟨evaluate_shape M e ctx elapsed wall s, ?_, ?_, ?_⟩
  · intro hv
    exact evaluate_rejected M e ctx elapsed wall h hv
  · intro hv hm msg hc
    have hm' : mapGet? (validateExpressionS e (incTotal s)).2.expressionCache
        (createCacheKey e) = none := by
      rw [hfr.2.1]; exact hm
    have htryE : (evaluateTry M e ctx elapsed wall (incTotal s)).1 =
        .error (.wrapped msg) := by
      rw [evaluateTry_of_valid M e ctx elapsed wall h₀ hv]
      exact evaluateValid_miss_compile_error M e ctx elapsed wall _ hm' msg hc
    exact evaluate_catch M e ctx elapsed wall s (.wrapped msg) htryE
  · intro hv fn hcase f hf
    have hcase' : mapGet? (validateExpressionS e (incTotal s)).2.expressionCache
        (createCacheKey e) = some fn ∨
        (mapGet? (validateExpressionS e (incTotal s)).2.expressionCache
          (createCacheKey e) = none ∧ compileExpression M e = .ok fn) := by
      rw [hfr.2.1]
      exact hcase
    have htryE : (evaluateTry M e ctx elapsed wall (incTotal s)).1 = .error f := by
      rw [evaluateTry_of_valid M e ctx elapsed wall h₀ hv]
      exact evaluateValid_exec_fault M e ctx elapsed wall _ fn f hcase' hf
    exact evaluate_catch M e ctx elapsed wall s f htryE

/-- C1 instantiated: the unbalanced text `((` is rejected by validation and
evaluates to 0 with the one recoverable "Invalid expression" record; the
text `1+` passes validation, fails compilation, and evaluates to 0 with the
one recoverable "Evaluation failed" record. -/
theorem spec_C1_witness :
    ((validatePure "((").isValid = false ∧
      (evaluate trivialMathModel "((" [] 0 0 initState).1 = JSNum.fin 0 ∧
      (evaluate trivialMathModel "((" [] 0 0 initState).2.errorLog =
        (⟨"EXPRESSION_EVALUATION_ERROR",
          "Invalid expression: " ++
            String.intercalate ", " (validatePure "((").errors, 0, true⟩ :
          AppErrorRec) :: initState.errorLog) ∧
    ((validatePure "1+").isValid = true ∧
      compileExpression trivialMathModel "1+" =
        .error "Failed to compile expression" ∧
      (evaluate trivialMathModel "1+" [] 0 0 initState).1 = JSNum.fin 0 ∧
      (evaluate trivialMathModel "1+" [] 0 0 initState).2.errorLog =
        (⟨"EXPRESSION_EVALUATION_ERROR", "Evaluation failed", 0, true⟩ :
          AppErrorRec) :: initState.errorLog) := by
  constructor
  · exact ⟨by decide,
      (spec_C1_evaluate_total_finite_fallback trivialMathModel "((" [] 0 0
        initState Reachable.init).2.1 (by decide)⟩
  · refine ⟨by decide, rfl, ?_⟩
    exact (spec_C1_evaluate_total_finite_fallback trivialMathModel "1+" [] 0 0
      initState Reachable.init).2.2.1 (by decide) rfl
      "Failed to compile expression" rfl

/-- C2 counterexample: the claim asserts
`evaluate("x", \x7bt:0, time:0, x:5\x7d) = 5`; in the code the rest entries land in
a single object `vars`, the bare identifier `x` is a `ReferenceError`
swallowed by the inner boundary, and the call returns 0, not 5. -/
theorem spec_C2_counterexample :
    (evaluate trivialMathModel "x" [("t", 0), ("time", 0), ("x", 5)] 0 0
      initState).1 = JSNum.fin 0 ∧
    (evaluate trivialMathModel "x" [("t", 0), ("time", 0), ("x", 5)] 0 0
      initState).1 ≠ JSNum.fin 5 := by
  constructor
  · rfl
  · decide

/-- C2 amended: the generated unit destructures only `t` and `time` (each
defaulting to 0) and gathers the remaining context entries into the single
rest object `vars`; an extra variable name is *not* destructured as a local
binding, so a bare occurrence of it raises a `ReferenceError` resolved to
the fallback 0 — in particular `evaluate("x", \x7bt:0, time:0, x:v\x7d)` returns 0
for every `v`. -/
theorem spec_C2_amended (name : String) (M : MathModel) (env : GenEnv)
    (fuel : Nat) (v : ℚ)
    (h1 : name ≠ "t") (h2 : name ≠ "time") (h3 : name ≠ "vars")
    (h4 : name ≠ "context") (h5 : name ≠ "Math") :
    evalJSFuel M env (fuel + 1) (JSExpr.ident name) = .error (.refErr name) ∧
    mkGenEnv [("t", 0), ("time", 0), ("x", v)] =
      ⟨0, 0, [("x", v)], [("t", 0), ("time", 0), ("x", v)]⟩ ∧
    (evaluate trivialMathModel "x" [("t", 0), ("time", 0), ("x", v)] 0 0
      initState).1 = JSNum.fin 0 := by
  refine ⟨?_, rfl, rfl⟩
  simp [evalJSFuel, h1, h2, h3, h4, h5]

/-- C2 amended, instantiated at the claim's own example. -/
theorem spec_C2_amended_witness :
    evalJSFuel trivialMathModel ⟨0, 0, [("x", 5)], [("t", 0), ("time", 0), ("x", 5)]⟩
        1 (JSExpr.ident "x") = .error (.refErr "x") ∧
    mkGenEnv [("t", 0), ("time", 0), ("x", 5)] =
      ⟨0, 0, [("x", 5)], [("t", 0), ("time", 0), ("x", 5)]⟩ ∧
    (evaluate trivialMathModel "x" [("t", 0), ("time", 0), ("x", 5)] 0 0
      initState).1 = JSNum.fin 0 :=
  spec_C2_amended "x" trivialMathModel
    ⟨0, 0, [("x", 5)], [("t", 0), ("time", 0), ("x", 5)]⟩ 0 5
    (by decide) (by decide) (by decide) (by decide) (by decide)

/-- C3: the code undercounts — the cache-hit path of `evaluate` returns
before `successfulEvaluations++`, so after two consecutive valid,
non-failing evaluations of the same expression the success rate is 50, not
the claimed 100. -/
theorem spec_C3_hit_path_skips_success_counter :
    ((evaluate trivialMathModel "1" [("t", 0), ("time", 0)] 0 0
        (evaluate trivialMathModel "1" [("t", 0), ("time", 0)] 0 0
          initState).2).2.stats.totalEvaluations = 2) ∧
    ((evaluate trivialMathModel "1" [("t", 0), ("time", 0)] 0 0
        (evaluate trivialMathModel "1" [("t", 0), ("time", 0)] 0 0
          initState).2).2.stats.successfulEvaluations = 1) ∧
    successRate
      (evaluate trivialMathModel "1" [("t", 0), ("time", 0)] 0 0
        (evaluate trivialMathModel "1" [("t", 0), ("time", 0)] 0 0
          initState).2).2.stats = 50 := by
  refine ⟨by decide, by decide, ?_⟩
  unfold successRate
  rw [show (evaluate trivialMathModel "1" [("t", 0), ("time", 0)] 0 0
      (evaluate trivialMathModel "1" [("t", 0), ("time", 0)] 0 0
        initState).2).2.stats.totalEvaluations = 2 from by decide,
    show (evaluate trivialMathModel "1" [("t", 0), ("time", 0)] 0 0
      (evaluate trivialMathModel "1" [("t", 0), ("time", 0)] 0 0
        initState).2).2.stats.successfulEvaluations = 1 from by decide]
  norm_num

/-- C4: every expression matching a deny-list pattern fails validation with
a forbidden-pattern error, and evaluating it from any reachable state
returns the fallback 0. -/
theorem spec_C4_denied_constructs_rejected (M : MathModel) (e : String)
    (ctx : Ctx) (elapsed wall : ℚ) (s : EvalState)
    (hs : Reachable s) (hf : forbiddenHit e = true) :
    (validatePure e).isValid = false ∧
    (∃ nm, ("Forbidden pattern detected: " ++ nm) ∈ (validatePure e).errors) ∧
    (evaluate M e ctx elapsed wall s).1 = JSNum.fin 0 := by
  have hinv := cacheInv_reachable hs
  obtain ⟨hval, hname⟩ := validatePure_forbidden hf
  exact ⟨hval, hname, (evaluate_invalid M e ctx elapsed wall hinv hval).1⟩

/-- C4 at the claim's example `eval(1)`, from the initial state. -/
theorem spec_C4_witness :
    forbiddenHit "eval(1)" = true ∧
    ((validatePure "eval(1)").isValid = false ∧
      (∃ nm, ("Forbidden pattern detected: " ++ nm) ∈ (validatePure "eval(1)").errors) ∧
      (evaluate trivialMathModel "eval(1)" [("t", 0), ("time", 0)] 0 0
        initState).1 = JSNum.fin 0) :=
  ⟨by decide,
    spec_C4_denied_constructs_rejected trivialMathModel "eval(1)"
      [("t", 0), ("time", 0)] 0 0 initState Reachable.init (by decide)⟩

/-- C5: at every reachable state both caches hold at most
`MAX_CACHE_SIZE = 1000` entries; moreover the validation cache is cleared
entirely when it reaches capacity before the new insert, and the compiled
cache's eviction drops the oldest `⌊1000·0.3⌋ = 300` entries by insertion
order. -/
theorem spec_C5_cache_bounds (s : EvalState) (hs : Reachable s) :
    s.validationCache.length ≤ MAX_CACHE_SIZE ∧
    s.expressionCache.length ≤ MAX_CACHE_SIZE ∧
    (∀ c : List (String × CompiledFn),
      (clearOldestCacheEntries c).length = c.length - 300) ∧
    (∀ e s', s'.validationCache.length ≥ MAX_CACHE_SIZE → jsTrim e ≠ "" →
      mapGet? s'.validationCache e = none →
      (validateExpressionS e s').2.validationCache = [(e, validatePure e)]) := by
  have hinv := cacheInv_reachable hs
  refine ⟨hinv.2.1, hinv.2.2, ?_, ?_⟩
  · intro c
    unfold clearOldestCacheEntries
    rw [List.length_drop]
    norm_num [MAX_CACHE_SIZE]
  · intro e s' hcap ht hm
    unfold validateExpressionS
    rw [hm, if_neg ht, if_pos hcap]
    simp [mapSet, mapHas]

/-- C5 at the initial state. -/
theorem spec_C5_witness :
    initState.validationCache.length ≤ MAX_CACHE_SIZE ∧
    initState.expressionCache.length ≤ MAX_CACHE_SIZE :=
  ⟨(spec_C5_cache_bounds initState Reachable.init).1,
   (spec_C5_cache_bounds initState Reachable.init).2.1⟩

/-- C6 counterexample: the validation cache is keyed by the *raw* text, not
the trimmed text — after validating `" 1"` the entry sits under `" 1"`
while a lookup under its trim `"1"` misses. -/
theorem spec_C6_counterexample :
    jsTrim " 1" = "1" ∧
    mapGet? ((validateExpressionS " 1" initState).2).validationCache "1" = none ∧
    (mapGet? ((validateExpressionS " 1" initState).2).validationCache " 1").isSome
      = true := by
  refine ⟨by decide, by decide, by decide⟩

/-- C6 amended: only the compiled-function cache is keyed by the trimmed
text (`createCacheKey`); the validation cache stores and looks entries up
under the raw text, so texts differing in leading/trailing whitespace share
a compiled entry but get distinct validation entries. -/
theorem spec_C6_amended :
    (∀ e, createCacheKey e = jsTrim e) ∧
    (∀ e s, jsTrim e ≠ "" → mapGet? s.validationCache e = none →
      mapGet? (validateExpressionS e s).2.validationCache e =
        some (validatePure e)) ∧
    (∀ (M : MathModel) e ctx elapsed wall s, Reachable s →
      (validatePure e).isValid = true →
      mapGet? s.expressionCache (jsTrim e) = none →
      (∃ g, compileExpression M e = .ok g) →
      (mapGet? (evaluate M e ctx elapsed wall s).2.expressionCache
        (jsTrim e)).isSome = true) := by
  refine ⟨fun e => rfl, ?_, ?_⟩
  · intro e s ht hm
    unfold validateExpressionS
    rw [hm, if_neg ht]
    exact mapGet?_mapSet_self _ _ _
  · intro M e ctx elapsed wall s hs hv hm hc
    exact evaluate_miss_inserts M e ctx elapsed wall (cacheInv_reachable hs) hv hm hc

/-- C6 amended at the whitespace-variant pair `" 1"` / `"1"`. -/
theorem spec_C6_witness :
    createCacheKey " 1" = jsTrim " 1" ∧
    mapGet? (validateExpressionS " 1" initState).2.validationCache " 1" =
      some (validatePure " 1") ∧
    (mapGet? (evaluate trivialMathModel " 1" [("t", 0), ("time", 0)] 0 0
      initState).2.expressionCache (jsTrim " 1")).isSome = true :=
  ⟨spec_C6_amended.1 " 1",
   spec_C6_amended.2.1 " 1" initState (by decide) rfl,
   spec_C6_amended.2.2 trivialMathModel " 1" [("t", 0), ("time", 0)] 0 0
     initState Reachable.init (by decide) rfl ⟨_, rfl⟩⟩

/-- C7 counterexample: a 2001-character whitespace-only expression is longer
than 2000 characters, yet the empty-text early return fires first: no
max-length error is recorded, refuting the claim's unrestricted overlength
clause. -/
theorem spec_C7_counterexample :
    2000 < (String.mk (List.replicate 2001 ' ')).length ∧
    validatePure (String.mk (List.replicate 2001 ' ')) = emptyExprResult ∧
    tooLongMsg ∉ (validatePure (String.mk (List.replicate 2001 ' '))).errors := by
  have hv := validatePure_wsOnly (jsTrim_replicate_space 2001)
  refine ⟨?_, hv, ?_⟩
  · rw [length_mk_replicate]
    norm_num
  · rw [hv]
    decide

/-- C7 amended: an empty or whitespace-only expression yields exactly the
fixed empty-expression result with no further checks; an expression longer
than 2000 characters *whose trim is nonempty* records the max-length error
with `isValid = false` while the syntax, security, complexity and dependency
checks still execute (the complexity score is still computed, deny-list
errors are still appended, and performance warnings still fire). -/
theorem spec_C7_empty_vs_overlength :
    (∀ e, jsTrim e = "" → validatePure e = emptyExprResult) ∧
    (∀ e, 2000 < e.length → jsTrim e ≠ "" →
      (validatePure e).isValid = false ∧
      tooLongMsg ∈ (validatePure e).errors ∧
      (validatePure e).complexity = complexityValue e ∧
      (forbiddenHit e = true →
        ∃ nm, ("Forbidden pattern detected: " ++ nm) ∈ (validatePure e).errors) ∧
      (complexityValue e > 100 →
        "High complexity expression may impact performance" ∈
          (validatePure e).warnings)) := by
  constructor
  · exact fun e ht => validatePure_wsOnly ht
  · intro e hlen ht
    obtain ⟨m, w, fu, vu, hspec⟩ := validatePure_spec e ht
    refine ⟨?_, ?_, ?_, ?_, ?_⟩
    · rw [hspec]
      simp [hlen]
    · rw [hspec]
      simp [hlen]
    · rw [hspec]
    · intro hf
      exact (validatePure_forbidden hf).2
    · intro hgt
      rw [hspec]
      simp [hgt]

/-- C7 amended, instantiated at a whitespace-only text and at a 2001
character non-blank text. -/
theorem spec_C7_witness :
    (jsTrim "   " = "" ∧ validatePure "   " = emptyExprResult) ∧
    (2000 < (String.mk (List.replicate 2001 'x')).length ∧
      jsTrim (String.mk (List.replicate 2001 'x')) ≠ "" ∧
      (validatePure (String.mk (List.replicate 2001 'x'))).isValid = false ∧
      tooLongMsg ∈ (validatePure (String.mk (List.replicate 2001 'x'))).errors) := by
  have hlen : 2000 < (String.mk (List.replicate 2001 'x')).length := by
    rw [length_mk_replicate]
    norm_num
  have ht : jsTrim (String.mk (List.replicate 2001 'x')) ≠ "" := by
    have h := jsTrim_replicate_x 2000
    rw [show (2000 + 1 : ℕ) = 2001 from rfl] at h
    exact h
  exact ⟨⟨by decide, spec_C7_empty_vs_overlength.1 "   " (by decide)⟩,
    hlen, ht,
    (spec_C7_empty_vs_overlength.2 _ hlen ht).1,
    (spec_C7_empty_vs_overlength.2 _ hlen ht).2.1⟩

/-- C8 counterexample: for a 20-space whitespace-only expression the claimed
formula gives round(2.0) = 2, but the early return leaves `complexity = 0`,
refuting the claim's unrestricted quantifier. -/
theorem spec_C8_counterexample :
    (validatePure (String.mk (List.replicate 20 ' '))).complexity = 0 ∧
    jsRound (complexityScore (String.mk (List.replicate 20 ' '))) = 2 := by
  constructor
  · rw [validatePure_wsOnly (jsTrim_replicate_space 20)]
    rfl
  · rw [← complexityValue_eq_jsRound]
    decide

/-- C8 amended: for every expression with nonempty trim, `complexity` equals
the rounded weighted score (0.1 per character, 1 per operator symbol, 2 per
open parenthesis, 3 per common transcendental name, 5 per expensive name);
for whitespace-only text it is 0; a score above 100 (resp. 500) appends the
performance warning (resp. the stronger one); and the complexity pass never
touches `isValid` or `errors`. -/
theorem spec_C8_complexity_formula :
    (∀ e, jsTrim e ≠ "" →
      (validatePure e).complexity = jsRound (complexityScore e)) ∧
    (∀ e, jsTrim e = "" → (validatePure e).complexity = 0) ∧
    (∀ e, jsTrim e ≠ "" → complexityValue e > 100 →
      "High complexity expression may impact performance" ∈
        (validatePure e).warnings) ∧
    (∀ e, jsTrim e ≠ "" → complexityValue e > 500 →
      "Extremely complex expression may cause significant performance issues" ∈
        (validatePure e).warnings) ∧
    (∀ e r, (analyzeComplexity e r).isValid = r.isValid ∧
      (analyzeComplexity e r).errors = r.errors) := by
  refine ⟨?_, ?_, ?_, ?_, ?_⟩
  · intro e ht
    rw [validatePure_complexity ht, complexityValue_eq_jsRound]
  · intro e ht
    rw [validatePure_wsOnly ht]
    rfl
  · intro e ht hgt
    obtain ⟨m, w, fu, vu, hspec⟩ := validatePure_spec e ht
    rw [hspec]
    simp [hgt]
  · intro e ht hgt
    obtain ⟨m, w, fu, vu, hspec⟩ := validatePure_spec e ht
    rw [hspec]
    simp [hgt]
  · intro e r
    rw [analyzeComplexity_spec]
    exact ⟨rfl, rfl⟩

/-- C8 amended, instantiated at `1+1` (score 1.3 → 1) and at 48 open
parentheses (score 100.8 → 101 > 100, so the performance warning fires). -/
theorem spec_C8_witness :
    (jsTrim "1+1" ≠ "" ∧
      (validatePure "1+1").complexity = jsRound (complexityScore "1+1") ∧
      (validatePure "1+1").complexity = 1) ∧
    (jsTrim (String.mk (List.replicate 48 '(')) ≠ "" ∧
      complexityValue (String.mk (List.replicate 48 '(')) = 101 ∧
      "High complexity expression may impact performance" ∈
        (validatePure (String.mk (List.replicate 48 '('))).warnings) := by
  refine ⟨⟨by decide, spec_C8_complexity_formula.1 "1+1" (by decide), by decide⟩,
    by decide, by decide, ?_⟩
  exact spec_C8_complexity_formula.2.2.1 _ (by decide) (by decide)

/-- C9: a validation-rejected call moves only the total counter (by exactly
one) while the success and failure counters, the EMA latency, the hit rate
and the compiled-function cache stay unchanged; and the failure counter
moves only when an exception reaches the façade's catch block, never on
validation rejection. -/
theorem spec_C9_validation_rejection_frame (M : MathModel) (e : String)
    (ctx : Ctx) (elapsed wall : ℚ) (s : EvalState) (hs : Reachable s) :
    ((validatePure e).isValid = false →
      (evaluate M e ctx elapsed wall s).2.stats.totalEvaluations =
        s.stats.totalEvaluations + 1 ∧
      (evaluate M e ctx elapsed wall s).2.stats.successfulEvaluations =
        s.stats.successfulEvaluations ∧
      (evaluate M e ctx elapsed wall s).2.stats.failedEvaluations =
        s.stats.failedEvaluations ∧
      (evaluate M e ctx elapsed wall s).2.stats.averageEvaluationTime =
        s.stats.averageEvaluationTime ∧
      (evaluate M e ctx elapsed wall s).2.stats.cacheHitRate =
        s.stats.cacheHitRate ∧
      (evaluate M e ctx elapsed wall s).2.expressionCache =
        s.expressionCache) ∧
    ((evaluate M e ctx elapsed wall s).2.stats.failedEvaluations ≠
        s.stats.failedEvaluations →
      ∃ f, (evaluateTry M e ctx elapsed wall (incTotal s)).1 = .error f) := by
  constructor
  · intro hv
    exact (evaluate_invalid M e ctx elapsed wall (cacheInv_reachable hs) hv).2
  · exact evaluate_failed_only_on_catch M e ctx elapsed wall s

/-- C9 instantiated: the empty expression exercises the rejection frame; the
expression `1+` passes validation, fails compilation, and shows the failure
counter moving exactly through the catch block. -/
theorem spec_C9_witness :
    ((evaluate trivialMathModel "" [] 0 0 initState).2.stats.totalEvaluations =
        initState.stats.totalEvaluations + 1 ∧
      (evaluate trivialMathModel "" [] 0 0 initState).2.stats.successfulEvaluations =
        initState.stats.successfulEvaluations ∧
      (evaluate trivialMathModel "" [] 0 0 initState).2.stats.failedEvaluations =
        initState.stats.failedEvaluations ∧
      (evaluate trivialMathModel "" [] 0 0 initState).2.stats.averageEvaluationTime =
        initState.stats.averageEvaluationTime ∧
      (evaluate trivialMathModel "" [] 0 0 initState).2.stats.cacheHitRate =
        initState.stats.cacheHitRate ∧
      (evaluate trivialMathModel "" [] 0 0 initState).2.expressionCache =
        initState.expressionCache) ∧
    (∃ f, (evaluateTry trivialMathModel "1+" [] 0 0 (incTotal initState)).1 =
      .error f) := by
  constructor
  · exact (spec_C9_validation_rejection_frame trivialMathModel "" [] 0 0
      initState Reachable.init).1 (by decide)
  · exact (spec_C9_validation_rejection_frame trivialMathModel "1+" [] 0 0
      initState Reachable.init).2 (by decide)

/-- C10: at every reachable state the validation cache contains no
empty/whitespace-only key, and validating such a text returns the fixed
fresh result while leaving the whole state — in particular the validation
cache — unchanged. -/
theorem spec_C10_blank_never_cached (s : EvalState) (hs : Reachable s) :
    (∀ p ∈ s.validationCache, jsTrim p.1 ≠ "") ∧
    (∀ e, jsTrim e = "" → validateExpressionS e s = (emptyExprResult, s)) := by
  have hinv := cacheInv_reachable hs
  exact ⟨fun p hp => (hinv.1 p hp).2, fun e ht => validateS_wsOnly e hinv ht⟩

/-- C10 at the initial state and a one-space text. -/
theorem spec_C10_witness :
    jsTrim " " = "" ∧
    validateExpressionS " " initState = (emptyExprResult, initState) :=
  ⟨by decide,
    (spec_C10_blank_never_cached initState Reachable.init).2 " " (by decide)⟩

end TrigVis
